import Mathlib

/-!
Verification development for the naming/structure normalization engine of the
filament database repository (source: src/ofd/scripts/cleanup_opt_naming.py).

The engine walks a four-level directory tree (Brand / MaterialClass /
FilamentType / Variant) whose nodes carry small JSON attribute documents,
detects nine categories of naming defects and (in apply mode) rewrites the
tree, producing a report of Actions, skips and errors.

This file gives a shallow embedding of that script:

  * JSON documents are insertion-ordered association lists (Python dicts).
    A file whose JSON fails to parse is modelled with content none, which is
    exactly what load_json returns for it.
  * The data tree is a four-level structure of named directories, each level
    carrying its files.  Directory listings are re-read from the live tree at
    every access (Python iterates over snapshots of names while all file
    operations act on the live filesystem); sorted(iterdir()) is modelled by
    an insertion sort over the stored names.
  * Python regular expressions appear only in fixed tables of the script, so
    each occurring pattern is embedded as a dedicated string function with
    the semantics of re.sub or re.match for that one pattern.
  * The nine detectors, the transform executors, the report formatter and the
    orchestrator run method are translated function by function, keeping the
    source names and the control flow (break/continue become recursion over
    the remaining list, loops become folds over name snapshots).

Out of model (side channels that never feed back into the tree or report):
progress callbacks, logging, and writing the report text to its file.
-/

/-! ### JSON values and documents -/

/-- A JSON scalar value as used by the documents of the data tree.  The
script only ever reads, compares, copies and rewrites whole values, so the
embedding needs scalars, not nested JSON. -/
inductive JVal where
  | jstr (s : String)
  | jnum (n : Int)
  | jbool (b : Bool)
  | jnull
deriving DecidableEq, Repr

/-- Python truthiness of a JSON value (used by "if color_hex:" and similar). -/
def JVal.truthy : JVal → Bool
  | .jstr s => !(s == "")
  | .jnum n => !(n == 0)
  | .jbool b => b
  | .jnull => false

/-- A JSON document: a Python dict, i.e. an insertion-ordered association
list with unique keys. -/
abbrev JDoc := List (String × JVal)

/-- Dict lookup, d.get(k) / d[k]. -/
def dget (d : JDoc) (k : String) : Option JVal :=
  (d.find? (fun p => p.1 == k)).map (fun p => p.2)

/-- Dict membership, "k in d". -/
def dmem (d : JDoc) (k : String) : Bool :=
  (dget d k).isSome

/-- Dict assignment d[k] = v: update in place when the key exists, append
otherwise (Python dicts keep insertion order). -/
def dset (d : JDoc) (k : String) (v : JVal) : JDoc :=
  if dmem d k then d.map (fun p => if p.1 == k then (k, v) else p)
  else d ++ [(k, v)]

/-- Dict d.pop(k, None): the removed value (if any) and the remaining dict. -/
def dpop (d : JDoc) (k : String) : Option JVal × JDoc :=
  (dget d k, d.filter (fun p => !(p.1 == k)))

/-- Dict d.get(k, default) where the script expects a string value; a
non-string value is read as the default (the documents written by the script
always store strings under "id" and "name"). -/
def dgetStrD (d : JDoc) (k : String) (deflt : String) : String :=
  match dget d k with
  | some (.jstr s) => s
  | _ => deflt

/-- Python truthiness of a dict: non-empty. -/
def docTruthy (d : JDoc) : Bool :=
  !d.isEmpty

/-! ### String helpers (Python string operations over ASCII data) -/

/-- Python whitespace class for the regex \s and str.strip on the ASCII data
of this repository. -/
def pyWs (c : Char) : Bool :=
  c == ' ' || c == '\t' || c == '\n' || c == '\r' || c == '\x0b' || c == '\x0c'

/-- Character comparison by code point, as Python compares characters. -/
def charLtB (a b : Char) : Bool :=
  a.toNat < b.toNat

/-- Lexicographic strict order on character lists (Python string <). -/
def charsLtB : List Char → List Char → Bool
  | [], [] => false
  | [], _ :: _ => true
  | _ :: _, [] => false
  | a :: as, b :: bs =>
    if a == b then charsLtB as bs else charLtB a b

/-- Python string <= by code points. -/
def strLeB (a b : String) : Bool :=
  !(charsLtB b.data a.data)

/-- Stable insertion into a list sorted by le. -/
def insertLe {α : Type} (le : α → α → Bool) (x : α) : List α → List α
  | [] => [x]
  | y :: ys => if le x y then x :: y :: ys else y :: insertLe le x ys

/-- Insertion sort; on the duplicate-free name lists of a directory this
yields exactly the order of Python sorted(). -/
def sortLe {α : Type} (le : α → α → Bool) (l : List α) : List α :=
  l.foldr (insertLe le) []

/-- Python sorted() over directory names. -/
def sortNames (l : List String) : List String :=
  sortLe strLeB l

/-- s.startswith(p). -/
def startswith (s p : String) : Bool :=
  p.data.isPrefixOf s.data

/-- s.endswith(p). -/
def endswith (s p : String) : Bool :=
  p.data.isSuffixOf s.data

/-- Substring search on character lists ("p in s" for Python strings). -/
def charsInfix (p : List Char) : List Char → Bool
  | [] => p.isEmpty
  | c :: cs => p.isPrefixOf (c :: cs) || charsInfix p cs

/-- Python substring containment "p in s". -/
def strIn (p s : String) : Bool :=
  charsInfix p.data s.data

/-- s[n:] on code points. -/
def strDrop (s : String) (n : Nat) : String :=
  String.mk (s.data.drop n)

/-- s[:-n] on code points (n greater than zero). -/
def strDropRight (s : String) (n : Nat) : String :=
  String.mk (s.data.take (s.data.length - n))

/-- Python len(s): number of code points. -/
def pyLen (s : String) : Nat :=
  s.data.length

/-- s.split(sep) for a single-character separator; like Python, empty pieces
are kept and the result is never empty. -/
def splitChar (sep : Char) (s : String) : List String :=
  (go s.data).map String.mk
where
  go : List Char → List (List Char)
    | [] => [[]]
    | c :: cs =>
      let rest := go cs
      if c == sep then [] :: rest
      else
        match rest with
        | [] => [[c]]
        | piece :: more => (c :: piece) :: more

/-- "_".join(parts). -/
def joinUnderscore (parts : List String) : String :=
  String.intercalate "_" parts

/-- s.replace("_", " "). -/
def underscoresToSpaces (s : String) : String :=
  String.mk (s.data.map (fun c => if c == '_' then ' ' else c))

/-- s.replace("_", ""). -/
def removeUnderscores (s : String) : String :=
  String.mk (s.data.filter (fun c => !(c == '_')))

/-- s.rstrip(underscore). -/
def rstripUnderscore (s : String) : String :=
  String.mk ((s.data.reverse.dropWhile (fun c => c == '_')).reverse)

/-- s.lstrip(underscore). -/
def lstripUnderscore (s : String) : String :=
  String.mk (s.data.dropWhile (fun c => c == '_'))

/-- s.strip(): trim Python whitespace from both ends. -/
def pyStrip (s : String) : String :=
  String.mk (((s.data.dropWhile pyWs).reverse.dropWhile pyWs).reverse)

/-- s.lower() on ASCII data. -/
def pyLower (s : String) : String :=
  String.mk (s.data.map Char.toLower)

/-- s.upper() on ASCII data. -/
def pyUpper (s : String) : String :=
  String.mk (s.data.map Char.toUpper)

/-- Python str.title() on ASCII data: the first letter after a non-letter is
uppercased, later letters of a word are lowercased. -/
def pyTitleChars : List Char → Bool → List Char
  | [], _ => []
  | c :: cs, prevCased =>
    if c.isAlpha then
      (if prevCased then c.toLower else c.toUpper) :: pyTitleChars cs true
    else c :: pyTitleChars cs false

/-- Python s.title(). -/
def pyTitle (s : String) : String :=
  String.mk (pyTitleChars s.data false)

example : pyTitle "dark blue" = "Dark Blue" := by decide
example : pyTitle "95a tpu" = "95A Tpu" := by decide

/-! ### Embedded regular expressions

The script uses regular expressions only from fixed tables, so every pattern
that occurs is embedded as a dedicated function with the semantics of re.sub,
re.match or re.search for that single pattern.  The matchers below work on
character lists and return the unconsumed remainder on success; greedy
maximal munch is exact for these patterns because no character class overlaps
the literal that follows it. -/

/-- Match a literal word. -/
def mLit (w : String) (s : List Char) : Option (List Char) :=
  if w.data.isPrefixOf s then some (s.drop w.data.length) else none

/-- Match one or more whitespace characters (regex \s+), greedily. -/
def mWs1 (s : List Char) : Option (List Char) :=
  match s with
  | c :: cs => if pyWs c then some (cs.dropWhile pyWs) else none
  | [] => none

/-- Match zero or more whitespace characters (regex \s*), greedily. -/
def mWs0 (s : List Char) : Option (List Char) :=
  some (s.dropWhile pyWs)

/-- Match zero or more characters of a class, greedily. -/
def mClass0 (cls : Char → Bool) (s : List Char) : Option (List Char) :=
  some (s.dropWhile cls)

/-- Match at most one character of a class, greedily. -/
def mOpt1 (cls : Char → Bool) (s : List Char) : Option (List Char) :=
  match s with
  | c :: cs => if cls c then some cs else some (c :: cs)
  | [] => some []

/-- The dash alternatives of the pattern [-–—]. -/
def dashCls (c : Char) : Bool :=
  c == '-' || c == '–' || c == '—'

/-- The class [\s_-] of several patterns. -/
def wsUnderscoreDash (c : Char) : Bool :=
  pyWs c || c == '_' || c == '-'

/-- Anchored substitution re.sub for a pattern starting with the anchor: when
the matcher succeeds at the start of the string, the matched part is removed;
otherwise the string is unchanged (the anchor can match only at position 0,
so at most one substitution happens). -/
def subStart (m : List Char → Option (List Char)) (s : String) : String :=
  match m s.data with
  | some rest => String.mk rest
  | none => s

/-- End-anchored substitution: remove the leftmost match that consumes the
string to its end (re.sub for a pattern ending in the anchor). -/
def subEndChars (m : List Char → Option (List Char)) : List Char → List Char
  | [] =>
    match m [] with
    | some [] => []
    | _ => []
  | c :: cs =>
    match m (c :: cs) with
    | some [] => []
    | _ => c :: subEndChars m cs

/-- End-anchored substitution on a string. -/
def subEnd (m : List Char → Option (List Char)) (s : String) : String :=
  String.mk (subEndChars m s.data)

/-- Matcher of the pattern "Basics Series" with \s separators and an optional
dash (rule basics_series_ of brand matter3d_inc). -/
def np_basics_series (s : List Char) : Option (List Char) :=
  (mLit "Basics" s).bind mWs1 |>.bind (mLit "Series") |>.bind mWs0
    |>.bind (mOpt1 dashCls) |>.bind mWs0

/-- Matcher of the pattern for rule hf_ of brand matter3d_inc. -/
def np_hf (s : List Char) : Option (List Char) :=
  (mLit "HF" s).bind mWs1

/-- Matcher of the pattern for rule ps_imports_ of brand printedsolid. -/
def np_ps_imports (s : List Char) : Option (List Char) :=
  (mLit "PS" s).bind mWs1 |>.bind (mLit "Imports") |>.bind mWs1

/-- Matcher of the pattern for rule innovatefil_ of smart_materials_3d. -/
def np_innovatefil (s : List Char) : Option (List Char) :=
  (mLit "Innovatefil" s).bind mWs1

/-- Matcher of the pattern for rule ep_easy_print_ of smart_materials_3d. -/
def np_ep_easy_print (s : List Char) : Option (List Char) :=
  (mLit "EP" s).bind mWs1 |>.bind (mLit "Easy") |>.bind mWs1
    |>.bind (mLit "Print") |>.bind mWs1

/-- Matcher of the pattern for rule pet_g_standard_hs_ of rosa3d_filaments. -/
def np_pet_g_standard_hs (s : List Char) : Option (List Char) :=
  (mLit "PET" s).bind (mClass0 wsUnderscoreDash) |>.bind (mOpt1 (fun c => c == 'G'))
    |>.bind mWs0 |>.bind (mLit "Standard") |>.bind mWs1 |>.bind (mLit "HS") |>.bind mWs1

/-- Matcher of the pattern for rule glow_in_the_dark_ of brand amolen. -/
def np_glow_in_the_dark (s : List Char) : Option (List Char) :=
  (mLit "Glow" s).bind mWs1 |>.bind (mLit "In") |>.bind mWs1
    |>.bind (mLit "The") |>.bind mWs1 |>.bind (mLit "Dark") |>.bind mWs1

/-- Matcher of the pattern for rule slk_cop_01_ of brand dremel. -/
def np_slk_cop_01 (s : List Char) : Option (List Char) :=
  (mLit "SLK" s).bind (mClass0 wsUnderscoreDash) |>.bind (mLit "COP")
    |>.bind (mClass0 wsUnderscoreDash) |>.bind (mLit "01") |>.bind mWs0

/-- Matcher of the pattern for rule nav_01_ of brand dremel. -/
def np_nav_01 (s : List Char) : Option (List Char) :=
  (mLit "NAV" s).bind (mClass0 wsUnderscoreDash) |>.bind (mLit "01") |>.bind mWs0

/-- Matcher of the pattern for rule bla_01_ of brand dremel. -/
def np_bla_01 (s : List Char) : Option (List Char) :=
  (mLit "BLA" s).bind (mClass0 wsUnderscoreDash) |>.bind (mLit "01") |>.bind mWs0

/-- Matcher of the pattern for rule high_speed_95a_flexible_ of sainsmart. -/
def np_high_speed_95a_flexible (s : List Char) : Option (List Char) :=
  (mLit "High" s).bind mWs1 |>.bind (mLit "Speed") |>.bind mWs1
    |>.bind (mLit "95A") |>.bind mWs1 |>.bind (mLit "Flexible") |>.bind mWs1

/-- Matcher of the pattern for rule petg_glow_in_the_dark_ of brand sunlu. -/
def np_petg_glow (s : List Char) : Option (List Char) :=
  (mLit "PETG" s).bind mWs1 |>.bind (mLit "Glow") |>.bind mWs1 |>.bind (mLit "In")
    |>.bind mWs1 |>.bind (mLit "The") |>.bind mWs1 |>.bind (mLit "Dark") |>.bind mWs1

/-- Matcher of the pattern for rule pla_glow_in_the_dark_ of brand sunlu. -/
def np_pla_glow (s : List Char) : Option (List Char) :=
  (mLit "PLA" s).bind mWs1 |>.bind (mLit "Glow") |>.bind mWs1 |>.bind (mLit "In")
    |>.bind mWs1 |>.bind (mLit "The") |>.bind mWs1 |>.bind (mLit "Dark") |>.bind mWs1

/-- Matcher of the end-anchored suffix pattern of brand zyltech. -/
def np_zyltech_composite (s : List Char) : Option (List Char) :=
  (mWs0 s).bind (mLit "New") |>.bind mWs1 |>.bind (mLit "Made") |>.bind mWs1
    |>.bind (mLit "In") |>.bind mWs1 |>.bind (mLit "Usa") |>.bind mWs1
    |>.bind (mLit "Premium") |>.bind mWs1 |>.bind (mLit "Composite")

/-- Matcher of the end-anchored suffix pattern of brand matterhackers. -/
def np_matterhackers_tpu (s : List Char) : Option (List Char) :=
  (mWs0 s).bind (mLit "Series") |>.bind mWs1 |>.bind (mLit "Thermoplastic")
    |>.bind mWs1 |>.bind (mLit "Polyurethane")

/-- Substitution removing a leading dash with surrounding whitespace, the
residual cleanup applied after a prefix rule strips a display name. -/
def stripLeadingDash (s : String) : String :=
  subStart (fun l => (mWs0 l).bind (fun l2 =>
    match l2 with
    | c :: cs => if dashCls c then some cs else none
    | [] => none) |>.bind mWs0) s

example : np_basics_series "Basics Series - Red".data = some "Red".data := by decide
example : stripLeadingDash " - Red" = "Red" := by decide
example : subEnd np_zyltech_composite "Glossy Red New Made In Usa Premium Composite" = "Glossy Red" := by decide

/-- Substitution removing every occurrence of an empty parenthetical, the
pattern of an opening parenthesis, optional whitespace and a closing
parenthesis; occurrences are found left to right and are non-overlapping,
as re.sub does. -/
def removeEmptyParensGo : Nat → List Char → List Char
  | 0, l => l
  | _, [] => []
  | fuel + 1, c :: cs =>
    if c == '(' then
      match cs.dropWhile pyWs with
      | ')' :: rest => removeEmptyParensGo fuel rest
      | _ => c :: removeEmptyParensGo fuel cs
    else c :: removeEmptyParensGo fuel cs

/-- The substitution over a character list; every step consumes at least one
character, so the length of the list is enough fuel. -/
def removeEmptyParensChars (l : List Char) : List Char :=
  removeEmptyParensGo l.length l

/-- re.sub removing empty parentheses from a string. -/
def removeEmptyParens (s : String) : String :=
  String.mk (removeEmptyParensChars s.data)

/-- Substitution replacing every run of two or more whitespace characters by
a single space (a single whitespace character is left as it is). -/
def collapseWsGo : Nat → List Char → List Char
  | 0, l => l
  | _, [] => []
  | fuel + 1, c :: cs =>
    if pyWs c then
      match cs with
      | d :: _ =>
        if pyWs d then ' ' :: collapseWsGo fuel (cs.dropWhile pyWs)
        else c :: collapseWsGo fuel cs
      | [] => [c]
    else c :: collapseWsGo fuel cs

/-- The substitution over a character list; every step consumes at least one
character, so the length of the list is enough fuel. -/
def collapseWsChars (l : List Char) : List Char :=
  collapseWsGo l.length l

/-- re.sub collapsing whitespace runs in a string. -/
def collapseWs (s : String) : String :=
  String.mk (collapseWsChars s.data)

example : removeEmptyParens "Red ( ) PLA ()" = "Red  PLA " := by decide
example : collapseWs "a  b   c d" = "a b c d" := by decide

/-! ### The dremel SKU pattern

The only entry of PRODUCT_LINE_SKU_PATTERNS is the dremel pattern of zero or
more lowercase-word groups followed by at least one digit group, each group
ending in an underscore, matched at the start.  Because a group must consist
entirely of one character class and end exactly at an underscore, the match
consumes whole underscore-terminated segments: the maximal run of lowercase
segments, then the maximal run of digit segments (none means no match, and
backtracking cannot help since a lowercase segment can never satisfy the
digit group). -/

/-- Split the leading complete underscore-terminated segments off a string;
returns the segments (without their underscore) and the tail after the last
underscore. -/
def splitUnitsGo : Nat → List Char → List (List Char) × List Char
  | 0, l => ([], l)
  | fuel + 1, l =>
    let seg := l.takeWhile (fun c => !(c == '_'))
    let rest := l.dropWhile (fun c => !(c == '_'))
    match rest with
    | '_' :: rest2 =>
      let (us, fin) := splitUnitsGo fuel rest2
      (seg :: us, fin)
    | _ => ([], l)

/-- Split the leading segments; every step consumes at least the underscore,
so the length of the list is enough fuel. -/
def splitUnits (l : List Char) : List (List Char) × List Char :=
  splitUnitsGo l.length l

/-- A nonempty all-lowercase segment (the group of [a-z] letters). -/
def isAlphaUnit (u : List Char) : Bool :=
  !u.isEmpty && u.all Char.isLower

/-- A nonempty all-digit segment. -/
def isDigitUnit (u : List Char) : Bool :=
  !u.isEmpty && u.all Char.isDigit

/-- Apply the dremel SKU regex at the start of a string and drop the matched
part; the string is unchanged when the pattern does not match. -/
def dremelSkuStrip (s : String) : String :=
  let (units, finTail) := splitUnits s.data
  let alphas := units.takeWhile isAlphaUnit
  let afterAlpha := units.drop alphas.length
  let digits := afterAlpha.takeWhile isDigitUnit
  if digits.isEmpty then s
  else
    let remainingUnits := afterAlpha.drop digits.length
    String.mk (remainingUnits.foldr (fun u acc => u ++ '_' :: acc) finTail)

example : dremelSkuStrip "bla_01_red" = "red" := by decide
example : dremelSkuStrip "04_01_blue" = "blue" := by decide
example : dremelSkuStrip "red" = "red" := by decide
example : dremelSkuStrip "ab_cd_x" = "ab_cd_x" := by decide

/-! ### Technical-specification patterns (Category 4) -/

/-- Existence of a match at some position, the semantics of re.search for a
pattern given as a predicate on the suffix starting at a position. -/
def searchAny (f : List Char → Bool) : List Char → Bool
  | [] => f []
  | c :: cs => f (c :: cs) || searchAny f cs

/-- Pattern of a bare number: one or more digits spanning the whole name. -/
def tech_bare_number (s : String) : Bool :=
  !s.data.isEmpty && s.data.all Char.isDigit

/-- Search for the literal of DuPont product codes. -/
def tech_hytrel (s : String) : Bool :=
  strIn "hytrel_" s

/-- Search for the literal of Coex product codes. -/
def tech_coexflex (s : String) : Bool :=
  strIn "coexflex_" s

/-- Search for ingeo_ followed by at least one digit. -/
def tech_ingeo (s : String) : Bool :=
  searchAny (fun l =>
    "ingeo_".data.isPrefixOf l &&
      (match l.drop 6 with
       | d :: _ => d.isDigit
       | [] => false)) s.data

/-- Search for one or more digits followed by a_flexible. -/
def tech_num_a_flexible (s : String) : Bool :=
  searchAny (fun l =>
    let ds := l.takeWhile Char.isDigit
    !ds.isEmpty && "a_flexible".data.isPrefixOf (l.drop ds.length)) s.data

/-- Search for flexible_ then digits then a_. -/
def tech_flexible_num_a (s : String) : Bool :=
  searchAny (fun l =>
    "flexible_".data.isPrefixOf l &&
      (let r := l.drop 9
       let ds := r.takeWhile Char.isDigit
       !ds.isEmpty && "a_".data.isPrefixOf (r.drop ds.length))) s.data

/-- Search for the SainSmart GT model-code pattern. -/
def tech_gt_high_speed (s : String) : Bool :=
  searchAny (fun l =>
    "gt_".data.isPrefixOf l &&
      (let r1 := l.drop 3
       let ds1 := r1.takeWhile Char.isDigit
       !ds1.isEmpty &&
         (let r2 := r1.drop ds1.length
          "_high_speed_".data.isPrefixOf r2 &&
            (let r3 := r2.drop 12
             let ds2 := r3.takeWhile Char.isDigit
             !ds2.isEmpty && "a_".data.isPrefixOf (r3.drop ds2.length))))) s.data

example : tech_bare_number "7016" = true := by decide
example : tech_num_a_flexible "87a_flexible" = true := by decide
example : tech_flexible_num_a "flexible_95a_red" = true := by decide
example : tech_gt_high_speed "gt_3_high_speed_95a_x" = true := by decide

/-! ### Vocabulary tables -/

/-- Known color names. -/
def KNOWN_COLORS : List String :=
  ["black", "white", "red", "blue", "green", "yellow", "orange",
   "purple", "pink", "grey", "gray", "clear", "natural", "gold",
   "silver", "bronze", "copper", "brown", "cyan", "magenta",
   "violet", "teal", "beige", "ivory", "charcoal", "cream",
   "maroon", "navy", "olive", "coral", "salmon", "lime",
   "turquoise", "indigo", "scarlet", "amber"]

/-- Color-modifier words. -/
def COLOR_MODIFIERS : List String :=
  ["neon", "dark", "light", "bright", "galaxy", "matte", "pastel",
   "deep", "pale", "hot", "liquid", "kaoss", "mango", "midnight",
   "cherry", "luminous", "mojito"]

/-- Material/product keywords. -/
def MATERIAL_KEYWORDS : List String :=
  ["tpu", "pla", "petg", "abs", "asa", "pa", "pc", "pva", "hips",
   "pctg", "pvdf", "pom", "peek", "pei", "flexible", "speed"]

/-- Material keywords that are uppercased in display names (Category 8). -/
def MATERIAL_UPPER : List String :=
  ["pla", "petg", "abs", "asa", "tpu", "tpe", "pa", "pa6", "pa12",
   "pc", "pva", "hips", "pctg", "pvdf", "pom", "peek", "pei", "pet",
   "pps", "ppa", "pvb", "pbt", "cf", "gf", "ht", "uv", "hs"]

/-- Lookup in an association list keyed by strings (a Python dict read). -/
def alookup {α : Type} (l : List (String × α)) (k : String) : Option α :=
  (l.find? (fun p => p.1 == k)).map (fun p => p.2)

/-- The behavior field of a brand prefix/suffix rule. -/
inductive RuleAction where
  | strip
  | flag
deriving DecidableEq, Repr

/-- A brand rule entry: the behavior and the display-name cleanup, the
embedding of re.sub with the name_pattern of the entry (every entry of the
source tables carries a nonempty name_pattern). -/
structure BrandRule where
  action : RuleAction
  name_sub : String → String

/-- Brand-specific prefix rules for Categories 2 and 3 (dict of dicts, in
source order). -/
def PREFIX_RULES : List (String × List (String × BrandRule)) :=
  [("matter3d_inc",
    [("basics_series_", ⟨.strip, subStart np_basics_series⟩),
     ("hf_", ⟨.strip, subStart np_hf⟩)]),
   ("printedsolid",
    [("ps_imports_", ⟨.strip, subStart np_ps_imports⟩)]),
   ("smart_materials_3d",
    [("innovatefil_", ⟨.strip, subStart np_innovatefil⟩),
     ("ep_easy_print_", ⟨.strip, subStart np_ep_easy_print⟩)]),
   ("rosa3d_filaments",
    [("pet_g_standard_hs_", ⟨.strip, subStart np_pet_g_standard_hs⟩)]),
   ("amolen",
    [("glow_in_the_dark_", ⟨.strip, subStart np_glow_in_the_dark⟩)]),
   ("dremel",
    [("slk_cop_01_", ⟨.strip, subStart np_slk_cop_01⟩),
     ("nav_01_", ⟨.strip, subStart np_nav_01⟩),
     ("bla_01_", ⟨.strip, subStart np_bla_01⟩)]),
   ("sainsmart",
    [("high_speed_95a_flexible_", ⟨.strip, subStart np_high_speed_95a_flexible⟩)]),
   ("sunlu",
    [("petg_glow_in_the_dark_", ⟨.strip, subStart np_petg_glow⟩),
     ("pla_glow_in_the_dark_", ⟨.strip, subStart np_pla_glow⟩)])]

/-- Product line prefixes at the variant level, per brand, longest first. -/
def PRODUCT_LINE_PREFIXES : List (String × List String) :=
  [("3dxtech", ["wearx_wear_resistant_nylon_filament_"]),
   ("amolen", ["galaxy_sparkle_shiny_galaxy_", "90a_flexible_"]),
   ("ataraxia_art", ["flexible_89a_"]),
   ("dremel", ["digilab_eco_", "digilab_", "df"]),
   ("eolas_prints", ["ingeo_850_", "ingeo_870_"]),
   ("flashforge", ["chameleon_", "d_series_", "rapid_"]),
   ("matter3d_inc", ["performance_"]),
   ("polar_filament", ["biodegradable_flexible_95a_soft_"]),
   ("polymaker",
    ["creator_special_edition_", "for_production_",
     "panchroma_", "polysmooth_", "polysonic_",
     "polylite_", "polycast_", "polywood_", "polymax_"]),
   ("primacreator", ["primaselect_", "primavalue_", "easyprint_"]),
   ("printedsolid", ["jessie_premium_"]),
   ("recreus", ["conductive_filaflex_", "balena_filaflex_", "filaflex_"]),
   ("rosa3d_filaments",
    ["impact_abrasive_uv_h2o_microbe_resistant_",
     "pet_g_structure_hs_", "pet_g_galaxy_hs_", "pet_g_hs_",
     "rosa_flex_"]),
   ("sainsmart",
    ["temperature_sensitive_flexible_95a_",
     "flexible_95a_", "flexible_87a_", "gt_3_"]),
   ("sunlu", ["luminous_glow_in_the_dark_"])]

/-- Additional per-brand SKU strip applied after the product line prefix; the
only entry is the dremel pattern embedded as dremelSkuStrip. -/
def PRODUCT_LINE_SKU_PATTERNS : List (String × (String → String)) :=
  [("dremel", dremelSkuStrip)]

/-- Product line suffixes at the variant level, per brand, longest first. -/
def PRODUCT_LINE_SUFFIXES : List (String × List String) :=
  [("coex_3d",
    ["_coexflex_60a", "_coexflex_60d", "_coexflex_40d", "_coexflex_30d"]),
   ("sainsmart", ["_92a_flexible"]),
   ("zyltech", ["_texas_twister_series_multi_color"]),
   ("matterhackers", ["_mh_build_series_flexible"])]

/-- Suffix noise stripped in place (the suffix mirror of PREFIX_RULES). -/
def SUFFIX_STRIP_RULES : List (String × List (String × BrandRule)) :=
  [("zyltech",
    [("_new_made_in_usa_premium_composite", ⟨.strip, subEnd np_zyltech_composite⟩)]),
   ("matterhackers",
    [("_series_thermoplastic_polyurethane", ⟨.strip, subEnd np_matterhackers_tpu⟩)])]

/-- Regex patterns for Category 4: the source text of the pattern (quoted in
the action description) and the embedded search predicate. -/
def TECH_SPEC_PATTERNS : List (String × (String → Bool)) :=
  [("^\\d+$", tech_bare_number),
   ("hytrel_", tech_hytrel),
   ("coexflex_", tech_coexflex),
   ("ingeo_\\d+", tech_ingeo),
   ("\\d+a_flexible", tech_num_a_flexible),
   ("flexible_\\d+a_", tech_flexible_num_a),
   ("gt_\\d+_high_speed_\\d+a_", tech_gt_high_speed)]

/-- The length threshold of Category 6. -/
def MAX_VARIANT_LENGTH : Nat := 40

/-! ### Name helpers -/

/-- Convert a slug to a display name, e.g. dark_blue to Dark Blue. -/
def clean_display_name (slug : String) : String :=
  pyTitle (underscoresToSpaces slug)

/-- Check whether a directory name looks like a color. -/
def is_color_like (name : String) : Bool :=
  let parts := splitChar '_' name
  if KNOWN_COLORS.contains name then true
  else if decide (2 ≤ parts.length) && COLOR_MODIFIERS.contains (parts.headD "")
      && KNOWN_COLORS.contains (joinUnderscore (parts.drop 1)) then true
  else
    decide (2 ≤ parts.length) && KNOWN_COLORS.contains (parts.getLastD "")
      && parts.dropLast.all (fun p => COLOR_MODIFIERS.contains p || KNOWN_COLORS.contains p)

/-- Check whether a name contains a material/product keyword (the source
intersects the set of underscore parts with MATERIAL_KEYWORDS). -/
def has_material_keyword (name : String) : Bool :=
  (splitChar '_' name).any (fun p => MATERIAL_KEYWORDS.contains p)

/-- Convert a slug to a display name uppercasing material keywords, e.g.
95a_tpu to 95A TPU (Category 8 helper id_to_display_name). -/
def id_to_display_name (slug : String) : String :=
  let parts := splitChar '_' slug
  String.intercalate " "
    (parts.map (fun p => if MATERIAL_UPPER.contains (pyLower p) then pyUpper p else pyTitle p))

/-- Longest common prefix of two character lists. -/
def lcpChars : List Char → List Char → List Char
  | a :: as, b :: bs => if a == b then a :: lcpChars as bs else []
  | _, _ => []

/-- Index of the last underscore of a character list, if any (str.rfind). -/
def rfindUnderscore (l : List Char) : Option Nat :=
  go l 0 none
where
  go : List Char → Nat → Option Nat → Option Nat
    | [], _, best => best
    | c :: cs, i, best => go cs (i + 1) (if c == '_' then some i else best)

/-- Longest common prefix ending in an underscore shared by all names; empty
when no qualifying prefix exists.  The shrink-until-prefix loop of the source
computes exactly the character-wise longest common prefix, which is then
truncated at its last underscore (an underscore at position zero or no
underscore at all yields the empty string). -/
def compute_common_prefix (names : List String) : String :=
  match names with
  | [] => ""
  | n0 :: rest =>
    let pfxChars := rest.foldl (fun acc n => lcpChars acc n.data) n0.data
    match rfindUnderscore pfxChars with
    | some idx => if 0 < idx then String.mk (pfxChars.take (idx + 1)) else ""
    | none => ""

/-- Whether the prefix information is already captured by the hierarchy
(Category 8 strip-versus-move decision). -/
def prefix_implied_by_filament (pfx filament_id brand : String) : Bool :=
  let p := rstripUnderscore pfx
  if strIn p filament_id then true
  else if p == "hs" && strIn "high_speed" filament_id then true
  else if p == "high_speed" && strIn "high_speed" filament_id then true
  else if strIn (removeUnderscores p) (removeUnderscores filament_id) then true
  else if strIn "glow_in_the_dark" pfx && strIn "glow" filament_id then true
  else
    let brand_parts := splitChar '_' brand
    let pfx_parts := splitChar '_' p
    brand_parts.any (fun bp => pfx_parts.contains bp)

/-- The separator class of the display-name pattern built from a prefix slug
in the Category 8 cleanup: whitespace, underscore, plus, hyphen, dot, star. -/
def cvnSep (c : Char) : Bool :=
  pyWs c || c == '_' || c == '+' || c == '-' || c == '.' || c == '*'

/-- Caseless literal match returning the remainder. -/
def caselessLit : List Char → List Char → Option (List Char)
  | [], s => some s
  | _ :: _, [] => none
  | p :: ps, c :: cs =>
    if p.toLower == c.toLower then caselessLit ps cs else none

/-- Matcher of the pattern built in the Category 8 cleanup from the prefix
parts: each part as a caseless literal, separator runs between the parts and
after the last part.  Maximal munch on the separator run is exact for the
slugs of this data, whose parts do not begin with a separator character. -/
def cvnMatch : List String → List Char → Option (List Char)
  | [], s => some s
  | [p] , s => (caselessLit p.data s).map (fun r => r.dropWhile cvnSep)
  | p :: rest, s =>
    (caselessLit p.data s).bind (fun r => cvnMatch rest (r.dropWhile cvnSep))

/-- Derive a clean display name for a variant after prefix stripping
(Category 8 helper): drop empty parentheses, strip the prefix-derived
pattern case-insensitively at the start, collapse space runs, and fall back
to the generated name when nothing remains. -/
def clean_variant_name (old_name pfx new_id : String) : String :=
  let cleaned := pyStrip (removeEmptyParens old_name)
  let parts := splitChar '_' (rstripUnderscore pfx)
  let cleaned :=
    match cvnMatch parts cleaned.data with
    | some rest => pyStrip (String.mk rest)
    | none => cleaned
  let cleaned := pyStrip (collapseWs cleaned)
  if cleaned == "" then clean_display_name new_id else cleaned

example : clean_display_name "dark_blue" = "Dark Blue" := by decide
example : is_color_like "neon_cyan" = true := by decide
example : is_color_like "mango_mojito" = false := by decide
example : is_color_like "flexible_tpu" = false := by decide
example : has_material_keyword "flexible_tpu" = true := by decide
example : id_to_display_name "a95_tpu" = "A95 TPU" := by decide
example : compute_common_prefix ["a95_black", "a95_white"] = "a95_" := by decide
example : prefix_implied_by_filament "a95_" "tpu" "bbb" = false := by decide
example : clean_variant_name "A95  Black ()" "a95_" "black" = "Black" := by decide

/-! ### The data tree

A four-level directory tree: Brand / MaterialClass / FilamentType / Variant.
Each directory stores its JSON files; a file whose content is none stands
for a file that open or json.load fails on (load_json returns None for it).
Variant directories hold only files, the shape of the repository data. -/

/-- A JSON file of the tree. -/
structure FileE where
  name : String
  content : Option JDoc
deriving DecidableEq, Repr

/-- A variant directory. -/
structure VDir where
  name : String
  files : List FileE
deriving DecidableEq, Repr

/-- A filament-type directory. -/
structure FDir where
  name : String
  files : List FileE
  vdirs : List VDir
deriving DecidableEq, Repr

/-- A material-class directory. -/
structure MDir where
  name : String
  files : List FileE
  fdirs : List FDir
deriving DecidableEq, Repr

/-- A brand directory. -/
structure BDir where
  name : String
  mdirs : List MDir
deriving DecidableEq, Repr

/-- The whole data directory. -/
abbrev DataTree := List BDir

/-- Find a file by name in a directory. -/
def findFile (files : List FileE) (n : String) : Option FileE :=
  files.find? (fun fe => fe.name == n)

/-- Write a file (save_json): replace in place or append. -/
def setFile (files : List FileE) (n : String) (d : JDoc) : List FileE :=
  if (findFile files n).isSome then
    files.map (fun fe => if fe.name == n then ⟨n, some d⟩ else fe)
  else files ++ [⟨n, some d⟩]

/-- Remove a file by name. -/
def removeFile (files : List FileE) (n : String) : List FileE :=
  files.filter (fun fe => !(fe.name == n))

/-- load_json: the parsed document of a possibly missing or unparseable
file; None both when the file is absent (OSError) and when parsing fails. -/
def load_json (fe : Option FileE) : Option JDoc :=
  match fe with
  | some f => f.content
  | none => none

/-- Find a brand directory. -/
def findB (t : DataTree) (b : String) : Option BDir :=
  t.find? (fun bd => bd.name == b)

/-- Find a material directory. -/
def findM (t : DataTree) (b m : String) : Option MDir :=
  (findB t b).bind (fun bd => bd.mdirs.find? (fun md => md.name == m))

/-- Find a filament directory. -/
def findF (t : DataTree) (b m f : String) : Option FDir :=
  (findM t b m).bind (fun md => md.fdirs.find? (fun fd => fd.name == f))

/-- Find a variant directory. -/
def findV (t : DataTree) (b m f v : String) : Option VDir :=
  (findF t b m f).bind (fun fd => fd.vdirs.find? (fun vd => vd.name == v))

/-- Update a material directory in place. -/
def updM (t : DataTree) (b m : String) (g : MDir → MDir) : DataTree :=
  t.map (fun bd =>
    if bd.name == b then { bd with mdirs := bd.mdirs.map (fun md => if md.name == m then g md else md) }
    else bd)

/-- Update a filament directory in place. -/
def updF (t : DataTree) (b m f : String) (g : FDir → FDir) : DataTree :=
  updM t b m (fun md =>
    { md with fdirs := md.fdirs.map (fun fd => if fd.name == f then g fd else fd) })

/-- Update a variant directory in place. -/
def updV (t : DataTree) (b m f v : String) (g : VDir → VDir) : DataTree :=
  updF t b m f (fun fd =>
    { fd with vdirs := fd.vdirs.map (fun vd => if vd.name == v then g vd else vd) })

/-- mkdir of a filament directory under an existing material directory
(mkdir with parents and exist_ok; brand and material directories always
exist at the call sites). -/
def ensureF (t : DataTree) (b m f : String) : DataTree :=
  if (findF t b m f).isSome then t
  else updM t b m (fun md => { md with fdirs := md.fdirs ++ [⟨f, [], []⟩] })

/-- mkdir of a variant directory under an existing filament directory. -/
def ensureV (t : DataTree) (b m f v : String) : DataTree :=
  if (findV t b m f v).isSome then t
  else updF t b m f (fun fd => { fd with vdirs := fd.vdirs ++ [⟨v, []⟩] })

/-- Delete a filament directory (shutil.rmtree). -/
def delF (t : DataTree) (b m f : String) : DataTree :=
  updM t b m (fun md => { md with fdirs := md.fdirs.filter (fun fd => !(fd.name == f)) })

/-- Delete a variant directory (shutil.rmtree). -/
def delV (t : DataTree) (b m f v : String) : DataTree :=
  updF t b m f (fun fd => { fd with vdirs := fd.vdirs.filter (fun vd => !(vd.name == v)) })

/-- The file of a filament directory. -/
def fileAtF (t : DataTree) (b m f n : String) : Option FileE :=
  (findF t b m f).bind (fun fd => findFile fd.files n)

/-- The file of a variant directory. -/
def fileAtV (t : DataTree) (b m f v n : String) : Option FileE :=
  (findV t b m f v).bind (fun vd => findFile vd.files n)

/-- save_json into a filament directory. -/
def saveJsonF (t : DataTree) (b m f n : String) (d : JDoc) : DataTree :=
  updF t b m f (fun fd => { fd with files := setFile fd.files n d })

/-- save_json into a variant directory. -/
def saveJsonV (t : DataTree) (b m f v n : String) (d : JDoc) : DataTree :=
  updV t b m f v (fun vd => { vd with files := setFile vd.files n d })

/-- shutil.move of a file from a variant directory to another variant
directory (no-op when the source file does not exist; the call sites guard
with an existence check). -/
def moveFileVV (t : DataTree) (b m f v n b2 m2 f2 v2 n2 : String) : DataTree :=
  match fileAtV t b m f v n with
  | none => t
  | some fe =>
    let t1 := updV t b m f v (fun vd => { vd with files := removeFile vd.files n })
    updV t1 b2 m2 f2 v2 (fun vd => { vd with files := vd.files ++ [⟨n2, fe.content⟩] })

/-- shutil.move of a file from a filament directory into a variant
directory. -/
def moveFileFV (t : DataTree) (b m f n b2 m2 f2 v2 n2 : String) : DataTree :=
  match fileAtF t b m f n with
  | none => t
  | some fe =>
    let t1 := updF t b m f (fun fd => { fd with files := removeFile fd.files n })
    updV t1 b2 m2 f2 v2 (fun vd => { vd with files := vd.files ++ [⟨n2, fe.content⟩] })

/-- shutil.move of a variant directory to a fresh destination path (the call
sites check beforehand that the destination does not exist). -/
def moveVDir (t : DataTree) (b m f v b2 m2 f2 v2 : String) : DataTree :=
  match findV t b m f v with
  | none => t
  | some vd =>
    let t1 := delV t b m f v
    updF t1 b2 m2 f2 (fun fd => { fd with vdirs := fd.vdirs ++ [{ vd with name := v2 }] })

/-- A hidden name, skipped by every directory walk of the script. -/
def hiddenName (n : String) : Bool :=
  startswith n "."

/-- sorted(dir.iterdir()) restricted to non-hidden directories, the listing
idiom used by every scan loop of the script. -/
def sortedDirNames (names : List String) : List String :=
  sortNames (names.filter (fun n => !hiddenName n))

/-- Non-hidden directory names in stored order (a listing without sorted,
used by the Category 1 variant scan). -/
def dirNamesUnsorted (names : List String) : List String :=
  names.filter (fun n => !hiddenName n)

/-- The sorted non-hidden brand directory names of the data directory. -/
def brandNames (t : DataTree) : List String :=
  sortedDirNames (t.map (fun bd => bd.name))

/-- The sorted non-hidden material directory names of a brand. -/
def materialNames (t : DataTree) (b : String) : List String :=
  match findB t b with
  | some bd => sortedDirNames (bd.mdirs.map (fun md => md.name))
  | none => []

/-- The sorted non-hidden filament directory names of a material. -/
def filamentNames (t : DataTree) (b m : String) : List String :=
  match findM t b m with
  | some md => sortedDirNames (md.fdirs.map (fun fd => fd.name))
  | none => []

/-- The sorted non-hidden variant directory names of a filament type. -/
def variantNames (t : DataTree) (b m f : String) : List String :=
  match findF t b m f with
  | some fd => sortedDirNames (fd.vdirs.map (fun vd => vd.name))
  | none => []

/-- The non-hidden variant directory names of a filament type in stored
order. -/
def variantNamesUnsorted (t : DataTree) (b m f : String) : List String :=
  match findF t b m f with
  | some fd => dirNamesUnsorted (fd.vdirs.map (fun vd => vd.name))
  | none => []

/-- A path of four segments relative to the data directory. -/
def relPath4 (b m f v : String) : String :=
  b ++ "/" ++ m ++ "/" ++ f ++ "/" ++ v

/-- A path of three segments relative to the data directory. -/
def relPath3 (b m f : String) : String :=
  b ++ "/" ++ m ++ "/" ++ f

/-! ### Actions and the report -/

/-- A single proposed fix. -/
structure CleanupAction where
  category : Nat
  brand : String
  old_path : String
  new_path : String
  description : String
  confidence : String
deriving DecidableEq, Repr

/-- Aggregated cleanup results. -/
structure CleanupReport where
  actions : List CleanupAction
  errors : List String
  skipped : List String
deriving DecidableEq, Repr

/-- The auto-confidence view of the report. -/
def CleanupReport.auto_actions (r : CleanupReport) : List CleanupAction :=
  r.actions.filter (fun a => a.confidence == "auto")

/-- The manual-review view of the report. -/
def CleanupReport.manual_actions (r : CleanupReport) : List CleanupAction :=
  r.actions.filter (fun a => a.confidence == "manual_review")

/-- The mutable state threaded through the run: the live tree and the
report the detectors and executors append to. -/
structure St where
  tree : DataTree
  report : CleanupReport
deriving DecidableEq, Repr

/-- Append an action to the report. -/
def St.addAction (s : St) (a : CleanupAction) : St :=
  { s with report := { s.report with actions := s.report.actions ++ [a] } }

/-- Append a skip message to the report. -/
def St.addSkip (s : St) (msg : String) : St :=
  { s with report := { s.report with skipped := s.report.skipped ++ [msg] } }

/-! ### Category 1: swapped filament/variant layers -/

/-- A pending Category 1 move: the source filament directory (a color), the
target filament directory (the product-named variant) and the color name,
the tuple the detection phase hands to the apply phase. -/
structure Cat1Move where
  brand : String
  material : String
  src_filament : String
  product : String
  color : String
deriving DecidableEq, Repr

/-- One product-named variant of a color-named filament directory: record
the swap action and the pending move. -/
def cat1VariantStep (brand m f : String)
    (acc : CleanupReport × List Cat1Move) (product : String) :
    CleanupReport × List Cat1Move :=
  let rel_old := relPath4 brand m f product
  let rel_new := relPath4 brand m product f
  ({ acc.1 with actions := acc.1.actions ++ [{
      category := 1, brand := brand, old_path := rel_old, new_path := rel_new,
      description := "Swap: filament '" ++ f ++ "' is a color, variant '"
        ++ product ++ "' is a product",
      confidence := "auto" }] },
   acc.2 ++ [⟨brand, m, f, product, f⟩])

/-- Scan one filament directory for the Category 1 trigger. -/
def cat1FilamentStep (t : DataTree) (brand m : String)
    (acc : CleanupReport × List Cat1Move) (f : String) :
    CleanupReport × List Cat1Move :=
  if !is_color_like f then acc
  else
    let variant_dirs := variantNamesUnsorted t brand m f
    if variant_dirs.isEmpty then acc
    else
      let product_variants := variant_dirs.filter has_material_keyword
      if product_variants.isEmpty then acc
      else product_variants.foldl (cat1VariantStep brand m f) acc

/-- Scan one material directory for the Category 1 trigger. -/
def cat1MaterialStep (t : DataTree) (brand : String)
    (acc : CleanupReport × List Cat1Move) (m : String) :
    CleanupReport × List Cat1Move :=
  (filamentNames t brand m).foldl (cat1FilamentStep t brand m) acc

/-- Detect filament dirs that are actually colors with variant dirs that are
actually product names; pure scan returning the actions appended to the
report and the moves for the apply phase. -/
def detect_category_1 (t : DataTree) (brand : String) (report : CleanupReport) :
    CleanupReport × List Cat1Move :=
  if (findB t brand).isNone then (report, [])
  else (materialNames t brand).foldl (cat1MaterialStep t brand) (report, [])

/-- Execute one Category 1 move against the live tree, tracking the set of
fully processed source filament dirs. -/
def cat1MoveStep (dry_run : Bool)
    (acc : St × List (String × String × String)) (mv : Cat1Move) :
    St × List (String × String × String) :=
  if (findV acc.1.tree mv.brand mv.material mv.product mv.color).isSome then
    -- collision: the target variant directory already exists
    (acc.1.addSkip ("Cat 1: " ++ relPath4 mv.brand mv.material mv.product mv.color
       ++ " already exists, skipping"), acc.2)
  else if dry_run then
    let src := (mv.brand, mv.material, mv.src_filament)
    (acc.1, if acc.2.contains src then acc.2 else acc.2 ++ [src])
  else
    let s := acc.1
    let src := (mv.brand, mv.material, mv.src_filament)
    let processed := acc.2
    -- ensure the target filament dir
    let t1 := ensureF s.tree mv.brand mv.material mv.product
    -- create its filament.json from the source filament.json when absent
    let t2 :=
      if (fileAtF t1 mv.brand mv.material mv.product "filament.json").isSome then t1
      else
        let fd0 : JDoc :=
          match fileAtF t1 mv.brand mv.material mv.src_filament "filament.json" with
          | some fe =>
            match fe.content with
            | some loaded => if docTruthy loaded then loaded else []
            | none => []
          | none => []
        let fdta := dset (dset fd0 "id" (.jstr mv.product)) "name"
          (.jstr (clean_display_name mv.product))
        saveJsonF t1 mv.brand mv.material mv.product "filament.json" fdta
    -- create the target variant directory
    let t3 := ensureV t2 mv.brand mv.material mv.product mv.color
    -- move sizes.json from the product-named subdir when present
    let t4 :=
      if (fileAtV t3 mv.brand mv.material mv.src_filament mv.product "sizes.json").isSome then
        moveFileVV t3 mv.brand mv.material mv.src_filament mv.product "sizes.json"
          mv.brand mv.material mv.product mv.color "sizes.json"
      else t3
    -- build variant.json: reuse the old variant.json of the product subdir
    let vd0 : JDoc :=
      match fileAtV t4 mv.brand mv.material mv.src_filament mv.product "variant.json" with
      | some fe =>
        match fe.content with
        | some loaded => if docTruthy loaded then loaded else []
        | none => []
      | none => []
    -- copy color_hex from the source filament.json when absent
    let vd1 : JDoc :=
      match fileAtF t4 mv.brand mv.material mv.src_filament "filament.json" with
      | some fe =>
        match fe.content with
        | some loaded =>
          if docTruthy loaded && dmem loaded "color_hex" && !dmem vd0 "color_hex" then
            match dget loaded "color_hex" with
            | some v => dset vd0 "color_hex" v
            | none => vd0
          else vd0
        | none => vd0
      | none => vd0
    let vd2 := dset (dset vd1 "id" (.jstr mv.color)) "name"
      (.jstr (clean_display_name mv.color))
    let t5 := saveJsonV t4 mv.brand mv.material mv.product mv.color "variant.json" vd2
    -- remove the now merged product-named subdir
    let t6 :=
      if (findV t5 mv.brand mv.material mv.src_filament mv.product).isSome then
        delV t5 mv.brand mv.material mv.src_filament mv.product
      else t5
    ({ s with tree := t6 },
     if processed.contains src then processed else processed ++ [src])

/-- Remove a fully processed source filament dir when nothing but its
filament.json or material.json remains (any subdirectory, hidden included,
and any other file keeps it alive). -/
def cat1CleanupStep (s : St) (src : String × String × String) : St :=
  match findF s.tree src.1 src.2.1 src.2.2 with
  | none => s
  | some fd =>
    let keeps := !fd.vdirs.isEmpty
      || fd.files.any (fun fe => !(fe.name == "filament.json") && !(fe.name == "material.json"))
    if keeps then s
    else { s with tree := delF s.tree src.1 src.2.1 src.2.2 }

/-- Execute the Category 1 swaps. -/
def apply_category_1 (moves : List Cat1Move) (dry_run : Bool) (s : St) : St :=
  let acc := moves.foldl (cat1MoveStep dry_run) (s, [])
  if dry_run then acc.1
  else acc.2.foldl cat1CleanupStep acc.1

/-! ### Categories 2 and 3: prefix stripping -/

/-- The variant.json rewrite shared by the executors: when the file exists
and its document is truthy, overwrite id and derive the display name from
the old document; otherwise leave the tree unchanged. -/
def updateVariantJsonWith (t : DataTree) (b m f v new_id : String)
    (mkName : JDoc → String) : DataTree :=
  match fileAtV t b m f v "variant.json" with
  | some fe =>
    match fe.content with
    | some data =>
      if docTruthy data then
        saveJsonV t b m f v "variant.json"
          (dset (dset data "id" (.jstr new_id)) "name" (.jstr (mkName data)))
      else t
    | none => t
  | none => t

/-- The display name computed by the Category 2/3 prefix executor: clean the
old name through the name_pattern of the rule, drop a residual leading dash,
and fall back to the generated name. -/
def prefixRuleName (rule : BrandRule) (new_id : String) (data : JDoc) : String :=
  let old_name := dgetStrD data "name" ""
  if !(old_name == "") then
    let n1 := pyStrip (rule.name_sub old_name)
    let n2 := pyStrip (stripLeadingDash n1)
    if !(n2 == "") then n2 else clean_display_name new_id
  else clean_display_name new_id

/-- Category filter test: skip when a filter is present and differs. -/
def filteredOut (catF : Option Nat) (cat : Nat) : Bool :=
  match catF with
  | some c => !(c == cat)
  | none => false

/-- The rules loop of the Category 2/3 scan for one variant: try each brand
rule in table order; continue past rules that do not apply or collide, stop
at the first applied one (the break of the source). -/
def prefixRulesLoop (brand m f variant_id : String) (dry_run : Bool)
    (catF : Option Nat) :
    List (String × BrandRule) → St × List String → St × List String
  | [], acc => acc
  | (pfx, rule) :: rest, acc =>
    if !(startswith variant_id pfx) then
      prefixRulesLoop brand m f variant_id dry_run catF rest acc
    else
      let new_id := strDrop variant_id (pyLen pfx)
      if new_id == "" then
        prefixRulesLoop brand m f variant_id dry_run catF rest acc
      else
        let cat : Nat := if !(pfx == "ps_imports_") then 2 else 3
        if filteredOut catF cat then
          prefixRulesLoop brand m f variant_id dry_run catF rest acc
        else
          let is_auto := rule.action == .strip
          let rel_old := relPath4 brand m f variant_id
          let rel_new := relPath4 brand m f new_id
          if acc.2.contains new_id && !(new_id == variant_id) then
            prefixRulesLoop brand m f variant_id dry_run catF rest
              (acc.1.addSkip ("Cat " ++ toString cat ++ ": " ++ rel_old ++ " -> "
                 ++ new_id ++ " would collide with existing variant"), acc.2)
          else
            let s1 := acc.1.addAction {
              category := cat, brand := brand, old_path := rel_old,
              new_path := if is_auto then rel_new else "",
              description := "Strip prefix '" ++ pfx ++ "' from variant",
              confidence := if is_auto then "auto" else "manual_review" }
            if !is_auto then (s1, acc.2)
            else
              let existing := (acc.2.filter (fun x => !(x == variant_id)))
              let existing := if existing.contains new_id then existing else existing ++ [new_id]
              if dry_run then (s1, existing)
              else
                let t1 := moveVDir s1.tree brand m f variant_id brand m f new_id
                let t2 := updateVariantJsonWith t1 brand m f new_id new_id
                  (prefixRuleName rule new_id)
                ({ s1 with tree := t2 }, existing)

/-- Category 2/3 scan of one variant. -/
def prefixesVariantStep (brand m f : String) (dry_run : Bool) (catF : Option Nat)
    (rules : List (String × BrandRule)) (acc : St × List String)
    (variant_id : String) : St × List String :=
  prefixRulesLoop brand m f variant_id dry_run catF rules acc

/-- Category 2/3 scan of one filament directory: snapshot the variants and
seed the collision set with the existing variant names. -/
def prefixesFilamentStep (brand m : String) (dry_run : Bool) (catF : Option Nat)
    (rules : List (String × BrandRule)) (s : St) (f : String) : St :=
  let existing := variantNamesUnsorted s.tree brand m f
  let snapshot := variantNames s.tree brand m f
  (snapshot.foldl (prefixesVariantStep brand m f dry_run catF rules) (s, existing)).1

/-- Category 2/3 scan of one material directory. -/
def prefixesMaterialStep (brand : String) (dry_run : Bool) (catF : Option Nat)
    (rules : List (String × BrandRule)) (s : St) (m : String) : St :=
  (filamentNames s.tree brand m).foldl
    (prefixesFilamentStep brand m dry_run catF rules) s

/-- Detect and optionally fix prefix pollution in variant names. -/
def detect_and_apply_prefixes (brand : String) (dry_run : Bool)
    (catF : Option Nat) (s : St) : St :=
  match alookup PREFIX_RULES brand with
  | none => s
  | some rules =>
    if (findB s.tree brand).isNone then s
    else (materialNames s.tree brand).foldl
      (prefixesMaterialStep brand dry_run catF rules) s

/-! ### Suffix stripping in place (reported as Category 2) -/

/-- The display name computed by the suffix-strip executor: like the prefix
executor but without the residual dash cleanup. -/
def suffixRuleName (rule : BrandRule) (new_id : String) (data : JDoc) : String :=
  let old_name := dgetStrD data "name" ""
  if !(old_name == "") then
    let n1 := pyStrip (rule.name_sub old_name)
    if !(n1 == "") then n1 else clean_display_name new_id
  else clean_display_name new_id

/-- The rules loop of the suffix strip for one variant. -/
def suffixRulesLoop (brand m f variant_id : String) (dry_run : Bool) :
    List (String × BrandRule) → St × List String → St × List String
  | [], acc => acc
  | (sfx, rule) :: rest, acc =>
    if !(endswith variant_id sfx) then
      suffixRulesLoop brand m f variant_id dry_run rest acc
    else
      let new_id := strDropRight variant_id (pyLen sfx)
      if new_id == "" then
        suffixRulesLoop brand m f variant_id dry_run rest acc
      else
        let rel_old := relPath4 brand m f variant_id
        let rel_new := relPath4 brand m f new_id
        if acc.2.contains new_id && !(new_id == variant_id) then
          suffixRulesLoop brand m f variant_id dry_run rest
            (acc.1.addSkip ("Cat 2: " ++ rel_old ++ " -> " ++ new_id
               ++ " would collide with existing variant"), acc.2)
        else
          let s1 := acc.1.addAction {
            category := 2, brand := brand, old_path := rel_old,
            new_path := rel_new,
            description := "Strip suffix '" ++ sfx ++ "' from variant",
            confidence := "auto" }
          let existing := (acc.2.filter (fun x => !(x == variant_id)))
          let existing := if existing.contains new_id then existing else existing ++ [new_id]
          if dry_run then (s1, existing)
          else
            let t1 := moveVDir s1.tree brand m f variant_id brand m f new_id
            let t2 := updateVariantJsonWith t1 brand m f new_id new_id
              (suffixRuleName rule new_id)
            ({ s1 with tree := t2 }, existing)

/-- Suffix strip of one variant. -/
def suffixStripVariantStep (brand m f : String) (dry_run : Bool)
    (rules : List (String × BrandRule)) (acc : St × List String)
    (variant_id : String) : St × List String :=
  suffixRulesLoop brand m f variant_id dry_run rules acc

/-- Suffix strip of one filament directory. -/
def suffixStripFilamentStep (brand m : String) (dry_run : Bool)
    (rules : List (String × BrandRule)) (s : St) (f : String) : St :=
  let existing := variantNamesUnsorted s.tree brand m f
  let snapshot := variantNames s.tree brand m f
  (snapshot.foldl (suffixStripVariantStep brand m f dry_run rules) (s, existing)).1

/-- Suffix strip of one material directory. -/
def suffixStripMaterialStep (brand : String) (dry_run : Bool)
    (rules : List (String × BrandRule)) (s : St) (m : String) : St :=
  (filamentNames s.tree brand m).foldl
    (suffixStripFilamentStep brand m dry_run rules) s

/-- Strip noise suffixes from variant names in place. -/
def detect_and_apply_suffix_strips (brand : String) (dry_run : Bool)
    (s : St) : St :=
  match alookup SUFFIX_STRIP_RULES brand with
  | none => s
  | some rules =>
    if (findB s.tree brand).isNone then s
    else (materialNames s.tree brand).foldl
      (suffixStripMaterialStep brand dry_run rules) s

/-! ### Category 4: technical specs as variant names -/

/-- Category 4 check of one variant: report the first matching technical
pattern unless the path was already surfaced this run. -/
def cat4VariantStep (brand m f : String) (already : List String)
    (rep : CleanupReport) (v : String) : CleanupReport :=
  let rel := relPath4 brand m f v
  if already.contains rel then rep
  else
    match TECH_SPEC_PATTERNS.find? (fun p => p.2 v) with
    | some p =>
      { rep with actions := rep.actions ++ [{
          category := 4, brand := brand, old_path := rel, new_path := "",
          description := "Technical spec in variant name (matched: " ++ p.1 ++ ")",
          confidence := "manual_review" }] }
    | none => rep

/-- Flag variants with technical specs or product codes instead of color
names. -/
def detect_category_4 (t : DataTree) (brand : String) (rep : CleanupReport)
    (already : List String) : CleanupReport :=
  if (findB t brand).isNone then rep
  else
    (materialNames t brand).foldl (fun r1 m =>
      (filamentNames t brand m).foldl (fun r2 f =>
        (variantNames t brand m f).foldl (cat4VariantStep brand m f already) r2) r1) rep

/-! ### Category 6: overly long variant names -/

/-- Category 6 check of one variant. -/
def cat6VariantStep (brand m f : String) (already : List String)
    (rep : CleanupReport) (v : String) : CleanupReport :=
  if decide (pyLen v ≤ MAX_VARIANT_LENGTH) then rep
  else
    let rel := relPath4 brand m f v
    if already.contains rel then rep
    else
      { rep with actions := rep.actions ++ [{
          category := 6, brand := brand, old_path := rel, new_path := "",
          description := "Variant name is " ++ toString (pyLen v)
            ++ " chars (max recommended: " ++ toString MAX_VARIANT_LENGTH ++ ")",
          confidence := "manual_review" }] }

/-- Flag variant names that are excessively long (post-fix audit). -/
def detect_category_6 (t : DataTree) (brand : String) (rep : CleanupReport)
    (already : List String) : CleanupReport :=
  if (findB t brand).isNone then rep
  else
    (materialNames t brand).foldl (fun r1 m =>
      (filamentNames t brand m).foldl (fun r2 f =>
        (variantNames t brand m f).foldl (cat6VariantStep brand m f already) r2) r1) rep

/-! ### Category 7: product line prefixes and suffixes -/

/-- The filament.json written for a freshly created product-line filament
directory: copy the source filament.json when loadable, then overwrite id
and prepend the product line to the display name. -/
def productLineFilamentDoc (t : DataTree) (brand m f : String)
    (product_line new_filament_id : String) : JDoc :=
  let fd0 : JDoc :=
    match fileAtF t brand m f "filament.json" with
    | some fe =>
      match fe.content with
      | some loaded => if docTruthy loaded then loaded else []
      | none => []
    | none => []
  let fd1 := dset fd0 "id" (.jstr new_filament_id)
  let source_name := dgetStrD fd1 "name" (clean_display_name f)
  dset fd1 "name" (.jstr (clean_display_name product_line ++ " " ++ source_name))

/-- The prefix loop of the Category 7 scan for one variant: try the brand
prefixes longest first; the first prefix that matches settles the variant
(skip on empty remainder or collision, otherwise record and, in apply mode,
execute the move). -/
def productLinePrefixLoop (brand m f variant_id : String) (dry_run : Bool)
    (sku : Option (String → String)) :
    List String → St × List String → St × List String
  | [], acc => acc
  | pfx :: rest, acc =>
    if !(startswith variant_id pfx) then
      productLinePrefixLoop brand m f variant_id dry_run sku rest acc
    else
      let remainder0 := strDrop variant_id (pyLen pfx)
      let remainder :=
        match sku with
        | some g => g remainder0
        | none => remainder0
      if remainder == "" then
        (acc.1.addSkip ("Cat 7: " ++ relPath4 brand m f variant_id
           ++ " -> empty after stripping prefix '" ++ pfx ++ "'"), acc.2)
      else
        let product_line := if rstripUnderscore pfx == "" then pfx else rstripUnderscore pfx
        let new_filament_id := product_line ++ "_" ++ f
        let rel_old := relPath4 brand m f variant_id
        let rel_new := relPath4 brand m new_filament_id remainder
        let target_key := relPath4 brand m new_filament_id remainder
        if (findV acc.1.tree brand m new_filament_id remainder).isSome
            || acc.2.contains target_key then
          (acc.1.addSkip ("Cat 7: " ++ rel_old ++ " -> " ++ rel_new ++ " would collide"),
           acc.2)
        else
          let s1 := acc.1.addAction {
            category := 7, brand := brand, old_path := rel_old, new_path := rel_new,
            description := "Move to product line filament '" ++ new_filament_id ++ "'",
            confidence := "auto" }
          let proposed := acc.2 ++ [target_key]
          if dry_run then (s1, proposed)
          else
            let t1 := ensureF s1.tree brand m new_filament_id
            let t2 :=
              if (fileAtF t1 brand m new_filament_id "filament.json").isSome then t1
              else saveJsonF t1 brand m new_filament_id "filament.json"
                (productLineFilamentDoc t1 brand m f product_line new_filament_id)
            let t3 := moveVDir t2 brand m f variant_id brand m new_filament_id remainder
            let t4 := updateVariantJsonWith t3 brand m new_filament_id remainder remainder
              (fun _ => clean_display_name remainder)
            ({ s1 with tree := t4 }, proposed)

/-- Category 7 prefix scan of one variant. -/
def productLineVariantStep (brand m f : String) (dry_run : Bool)
    (prefixes : List String) (sku : Option (String → String))
    (acc : St × List String) (variant_id : String) : St × List String :=
  productLinePrefixLoop brand m f variant_id dry_run sku prefixes acc

/-- Category 7 prefix scan of one filament directory. -/
def productLineFilamentStep (brand m : String) (dry_run : Bool)
    (prefixes : List String) (sku : Option (String → String))
    (acc : St × List String) (f : String) : St × List String :=
  (variantNames acc.1.tree brand m f).foldl
    (productLineVariantStep brand m f dry_run prefixes sku) acc

/-- Category 7 prefix scan of one material directory. -/
def productLineMaterialStep (brand : String) (dry_run : Bool)
    (prefixes : List String) (sku : Option (String → String))
    (acc : St × List String) (m : String) : St × List String :=
  (filamentNames acc.1.tree brand m).foldl
    (productLineFilamentStep brand m dry_run prefixes sku) acc

/-- Move variants with product-line prefixes into new filament directories. -/
def detect_and_apply_product_lines (brand : String) (dry_run : Bool)
    (s : St) : St :=
  match alookup PRODUCT_LINE_PREFIXES brand with
  | none => s
  | some prefixes =>
    if (findB s.tree brand).isNone then s
    else
      let sku := alookup PRODUCT_LINE_SKU_PATTERNS brand
      ((materialNames s.tree brand).foldl
        (productLineMaterialStep brand dry_run prefixes sku) (s, [])).1

/-- The suffix loop of the Category 7 suffix scan for one variant; the
mirror of the prefix loop (the new filament keeps the "line before type"
naming of the prefix case). -/
def productLineSuffixLoop (brand m f variant_id : String) (dry_run : Bool) :
    List String → St × List String → St × List String
  | [], acc => acc
  | sfx :: rest, acc =>
    if !(endswith variant_id sfx) then
      productLineSuffixLoop brand m f variant_id dry_run rest acc
    else
      let remainder := strDropRight variant_id (pyLen sfx)
      if remainder == "" then
        (acc.1.addSkip ("Cat 7: " ++ relPath4 brand m f variant_id
           ++ " -> empty after stripping suffix '" ++ sfx ++ "'"), acc.2)
      else
        let product_line := if lstripUnderscore sfx == "" then sfx else lstripUnderscore sfx
        let new_filament_id := product_line ++ "_" ++ f
        let rel_old := relPath4 brand m f variant_id
        let rel_new := relPath4 brand m new_filament_id remainder
        let target_key := relPath4 brand m new_filament_id remainder
        if (findV acc.1.tree brand m new_filament_id remainder).isSome
            || acc.2.contains target_key then
          (acc.1.addSkip ("Cat 7: " ++ rel_old ++ " -> " ++ rel_new ++ " would collide"),
           acc.2)
        else
          let s1 := acc.1.addAction {
            category := 7, brand := brand, old_path := rel_old, new_path := rel_new,
            description := "Move to product line filament '" ++ new_filament_id
              ++ "' (suffix)",
            confidence := "auto" }
          let proposed := acc.2 ++ [target_key]
          if dry_run then (s1, proposed)
          else
            let t1 := ensureF s1.tree brand m new_filament_id
            let t2 :=
              if (fileAtF t1 brand m new_filament_id "filament.json").isSome then t1
              else saveJsonF t1 brand m new_filament_id "filament.json"
                (productLineFilamentDoc t1 brand m f product_line new_filament_id)
            let t3 := moveVDir t2 brand m f variant_id brand m new_filament_id remainder
            let t4 := updateVariantJsonWith t3 brand m new_filament_id remainder remainder
              (fun _ => clean_display_name remainder)
            ({ s1 with tree := t4 }, proposed)

/-- Category 7 suffix scan of one variant. -/
def productLineSuffixVariantStep (brand m f : String) (dry_run : Bool)
    (suffixes : List String) (acc : St × List String) (variant_id : String) :
    St × List String :=
  productLineSuffixLoop brand m f variant_id dry_run suffixes acc

/-- Category 7 suffix scan of one filament directory. -/
def productLineSuffixFilamentStep (brand m : String) (dry_run : Bool)
    (suffixes : List String) (acc : St × List String) (f : String) :
    St × List String :=
  (variantNames acc.1.tree brand m f).foldl
    (productLineSuffixVariantStep brand m f dry_run suffixes) acc

/-- Category 7 suffix scan of one material directory. -/
def productLineSuffixMaterialStep (brand : String) (dry_run : Bool)
    (suffixes : List String) (acc : St × List String) (m : String) :
    St × List String :=
  (filamentNames acc.1.tree brand m).foldl
    (productLineSuffixFilamentStep brand m dry_run suffixes) acc

/-- Move variants with product-line suffixes into new filament directories. -/
def detect_and_apply_product_line_suffixes (brand : String) (dry_run : Bool)
    (s : St) : St :=
  match alookup PRODUCT_LINE_SUFFIXES brand with
  | none => s
  | some suffixes =>
    if (findB s.tree brand).isNone then s
    else
      ((materialNames s.tree brand).foldl
        (productLineSuffixMaterialStep brand dry_run suffixes) (s, [])).1

/-! ### Category 5: color split -/

/-- The Category 5 trigger: decompose a filament id into a head containing a
material keyword and a one-or-two-part tail that is a known color; the
source tries tail lengths in increasing order and stops at the first hit. -/
def colorSplitMatch (filament_id : String) : Option (String × String) :=
  let parts := splitChar '_' filament_id
  ((List.range (min 3 parts.length)).drop 1).findSome? (fun i =>
    let tail := joinUnderscore (parts.drop (parts.length - i))
    let head := joinUnderscore (parts.take (parts.length - i))
    if KNOWN_COLORS.contains tail && !(head == "") && has_material_keyword head then
      some (head, tail)
    else none)

/-- The filament.json written for a fresh Category 5 target: copy the
source document, overwrite id and name, and pop color_hex off the type
level; the removed value and the remaining document. -/
def colorSplitFilamentDoc (fd0 : JDoc) (head : String) : Option JVal × JDoc :=
  dpop (dset (dset fd0 "id" (.jstr head)) "name"
    (.jstr (clean_display_name head))) "color_hex"

/-- The variant.json written by a Category 5 split: id and display name
from the tail, plus the color_hex when its value is truthy. -/
def colorSplitVariantDoc (color_hex : Option JVal) (tail : String) : JDoc :=
  let vdata0 : JDoc := [("id", .jstr tail), ("name", .jstr (clean_display_name tail))]
  match color_hex with
  | some v => if v.truthy then dset vdata0 "color_hex" v else vdata0
  | none => vdata0

/-- Category 5 scan and optional split of one filament directory. -/
def colorSplitFilamentStep (brand m : String) (dry_run : Bool) (s : St)
    (f : String) : St :=
  match colorSplitMatch f with
  | none => s
  | some (head, tail) =>
    let rel_old := relPath3 brand m f
    let rel_new := relPath4 brand m head tail
    if (findV s.tree brand m head tail).isSome then
      s.addSkip ("Cat 5: " ++ rel_old ++ " -> " ++ rel_new ++ " would collide")
    else
      let s1 := s.addAction {
        category := 5, brand := brand, old_path := rel_old, new_path := rel_new,
        description := "Split filament '" ++ f ++ "' into '" ++ head ++ "/" ++ tail ++ "'",
        confidence := "auto" }
      if dry_run then s1
      else
        let t1 := ensureF s1.tree brand m head
        -- create the target filament.json when absent, extracting color_hex;
        -- otherwise only read color_hex from the source document
        let pair :=
          if (fileAtF t1 brand m head "filament.json").isSome then
            let ch :=
              match fileAtF t1 brand m f "filament.json" with
              | some fe =>
                match fe.content with
                | some loaded => if docTruthy loaded then dget loaded "color_hex" else none
                | none => none
              | none => none
            (ch, t1)
          else
            let fd0 : JDoc :=
              match fileAtF t1 brand m f "filament.json" with
              | some fe =>
                match fe.content with
                | some loaded => if docTruthy loaded then loaded else []
                | none => []
              | none => []
            let popped := colorSplitFilamentDoc fd0 head
            (popped.1, saveJsonF t1 brand m head "filament.json" popped.2)
        let color_hex := pair.1
        let t2 := pair.2
        let t3 := ensureV t2 brand m head tail
        let vdata := colorSplitVariantDoc color_hex tail
        let t4 := saveJsonV t3 brand m head tail "variant.json" vdata
        let t5 :=
          if (fileAtF t4 brand m f "sizes.json").isSome then
            moveFileFV t4 brand m f "sizes.json" brand m head tail "sizes.json"
          else t4
        -- move the variant subdirs of the old filament into the target
        let subs : List String :=
          match findF t5 brand m f with
          | some fd => sortedDirNames (fd.vdirs.map (fun (vd : VDir) => vd.name))
          | none => []
        let t6 := subs.foldl (fun tt sub =>
          if (findV tt brand m head sub).isNone then
            moveVDir tt brand m f sub brand m head sub
          else tt) t5
        -- clean up the old filament dir when no directory remains in it
        let t7 :=
          match findF t6 brand m f with
          | some fd =>
            if fd.vdirs.any (fun vd =>
                !(vd.name == "filament.json") && !(vd.name == "material.json")) then t6
            else delF t6 brand m f
          | none => t6
        { s1 with tree := t7 }

/-- Category 5 scan of one material directory. -/
def colorSplitMaterialStep (brand : String) (dry_run : Bool) (s : St)
    (m : String) : St :=
  (filamentNames s.tree brand m).foldl (colorSplitFilamentStep brand m dry_run) s

/-- Split filament dirs whose name contains both a product type and a
color. -/
def detect_and_apply_color_split (brand : String) (dry_run : Bool) (s : St) : St :=
  if (findB s.tree brand).isNone then s
  else (materialNames s.tree brand).foldl (colorSplitMaterialStep brand dry_run) s

/-! ### Category 8: universal common-prefix detection -/

/-- Strip a common prefix from one variant in place (the per-variant body of
the strip branch). -/
def cat8StripVariantStep (brand m f cp : String) (dry_run : Bool)
    (acc : St × List String) (old_id : String) : St × List String :=
  let new_id := strDrop old_id (pyLen cp)
  if new_id == "" then acc
  else
    let rel_old := relPath4 brand m f old_id
    let rel_new := relPath4 brand m f new_id
    if acc.2.contains new_id && !(new_id == old_id) then
      (acc.1.addSkip ("Cat 8: " ++ rel_old ++ " -> " ++ new_id ++ " would collide"),
       acc.2)
    else
      let s1 := acc.1.addAction {
        category := 8, brand := brand, old_path := rel_old, new_path := rel_new,
        description := "Strip common prefix '" ++ cp ++ "'",
        confidence := "auto" }
      let existing := acc.2.filter (fun x => !(x == old_id))
      let existing := if existing.contains new_id then existing else existing ++ [new_id]
      if dry_run then (s1, existing)
      else
        let t1 := moveVDir s1.tree brand m f old_id brand m f new_id
        let t2 := updateVariantJsonWith t1 brand m f new_id new_id
          (fun data => clean_variant_name (dgetStrD data "name" "") cp new_id)
        ({ s1 with tree := t2 }, existing)

/-- Strip the prefix from all variant dirs of the filament in place. -/
def apply_strip8 (brand m f : String) (variant_dirs : List String) (cp : String)
    (dry_run : Bool) (s : St) : St :=
  (variant_dirs.foldl (cat8StripVariantStep brand m f cp dry_run)
    (s, variant_dirs)).1

/-- Move one variant into the new prefix-named filament dir (the per-variant
body of the move branch). -/
def cat8MoveVariantStep (brand m f cp new_filament_id : String) (dry_run : Bool)
    (acc : St × List String) (old_id : String) : St × List String :=
  let new_id := strDrop old_id (pyLen cp)
  if new_id == "" then
    (acc.1.addSkip ("Cat 8: " ++ relPath4 brand m f old_id
       ++ " -> empty after stripping '" ++ cp ++ "'"), acc.2)
  else
    let rel_old := relPath4 brand m f old_id
    let rel_new := relPath4 brand m new_filament_id new_id
    let target_key := relPath4 brand m new_filament_id new_id
    if (findV acc.1.tree brand m new_filament_id new_id).isSome
        || acc.2.contains target_key then
      (acc.1.addSkip ("Cat 8: " ++ rel_old ++ " -> " ++ rel_new ++ " would collide"),
       acc.2)
    else
      let s1 := acc.1.addAction {
        category := 8, brand := brand, old_path := rel_old, new_path := rel_new,
        description := "Move to new filament '" ++ new_filament_id
          ++ "', strip prefix '" ++ cp ++ "'",
        confidence := "auto" }
      let proposed := acc.2 ++ [target_key]
      if dry_run then (s1, proposed)
      else
        let t1 := ensureF s1.tree brand m new_filament_id
        let t2 :=
          if (fileAtF t1 brand m new_filament_id "filament.json").isSome then t1
          else
            let fd0 : JDoc :=
              match fileAtF t1 brand m f "filament.json" with
              | some fe =>
                match fe.content with
                | some loaded => if docTruthy loaded then loaded else []
                | none => []
              | none => []
            let fd1 := dset (dset fd0 "id" (.jstr new_filament_id)) "name"
              (.jstr (id_to_display_name new_filament_id))
            saveJsonF t1 brand m new_filament_id "filament.json" fd1
        let t3 := moveVDir t2 brand m f old_id brand m new_filament_id new_id
        let t4 := updateVariantJsonWith t3 brand m new_filament_id new_id new_id
          (fun data => clean_variant_name (dgetStrD data "name" "") cp new_id)
        ({ s1 with tree := t4 }, proposed)

/-- Move the variants into a new filament dir named from the prefix and the
filament id, then remove the emptied source filament dir (a remaining
non-hidden variant keeps it alive). -/
def apply_move8 (brand m f : String) (variant_dirs : List String) (cp : String)
    (dry_run : Bool) (s : St) : St :=
  let product_line := rstripUnderscore cp
  let new_filament_id := product_line ++ "_" ++ f
  let s1 := (variant_dirs.foldl
    (cat8MoveVariantStep brand m f cp new_filament_id dry_run) (s, [])).1
  if dry_run then s1
  else
    match findF s1.tree brand m f with
    | some fd =>
      if (fd.vdirs.filter (fun vd => !hiddenName vd.name)).isEmpty then
        { s1 with tree := delF s1.tree brand m f }
      else s1
    | none => s1

/-- Category 8 scan of one filament directory: all variants must share a
word-sized common prefix; strip it in place when the hierarchy already
implies it, otherwise move the variants into a new filament dir. -/
def cat8FilamentStep (brand m : String) (dry_run : Bool) (s : St) (f : String) : St :=
  let variant_dirs := variantNames s.tree brand m f
  if decide (variant_dirs.length < 2) then s
  else
    let cp := compute_common_prefix variant_dirs
    if cp == "" || decide (pyLen cp < 3) then s
    else if !(variant_dirs.all (fun v => startswith v cp)) then s
    else if prefix_implied_by_filament cp f brand then
      apply_strip8 brand m f variant_dirs cp dry_run s
    else
      apply_move8 brand m f variant_dirs cp dry_run s

/-- Category 8 scan of one material directory. -/
def cat8MaterialStep (brand : String) (dry_run : Bool) (s : St) (m : String) : St :=
  (filamentNames s.tree brand m).foldl (cat8FilamentStep brand m dry_run) s

/-- Detect filament types where all variants share a common prefix. -/
def detect_and_apply_common_prefix (brand : String) (dry_run : Bool) (s : St) : St :=
  if (findB s.tree brand).isNone then s
  else (materialNames s.tree brand).foldl (cat8MaterialStep brand dry_run) s

/-! ### Category 9: broken display names -/

/-- Category 9 scan and optional fix of one variant. -/
def cat9VariantStep (brand m f : String) (dry_run : Bool) (s : St) (v : String) : St :=
  match fileAtV s.tree brand m f v "variant.json" with
  | none => s
  | some fe =>
    match fe.content with
    | none => s
    | some data =>
      if !docTruthy data then s
      else
        let name := dgetStrD data "name" ""
        if name == "" then s
        else
          let n1 := removeEmptyParens name
          let n2 := collapseWs n1
          let n3 := pyStrip n2
          let n4 := if n3 == "" then clean_display_name v else n3
          let expected := clean_display_name v
          let new_name :=
            if !(n4 == expected) && endswith (pyLower n4) (pyLower expected)
                && decide (pyLen expected + 2 < pyLen n4) then expected
            else n4
          if new_name == name then s
          else
            let rel := relPath4 brand m f v
            let s1 := s.addAction {
              category := 9, brand := brand, old_path := rel, new_path := "",
              description := "Fix display name: '" ++ name ++ "' -> '" ++ new_name ++ "'",
              confidence := "auto" }
            if dry_run then s1
            else
              let t1 := saveJsonV s1.tree brand m f v "variant.json"
                (dset data "name" (.jstr new_name))
              { s1 with tree := t1 }

/-- Category 9 scan of one filament directory. -/
def cat9FilamentStep (brand m : String) (dry_run : Bool) (s : St) (f : String) : St :=
  (variantNames s.tree brand m f).foldl (cat9VariantStep brand m f dry_run) s

/-- Category 9 scan of one material directory. -/
def cat9MaterialStep (brand : String) (dry_run : Bool) (s : St) (m : String) : St :=
  (filamentNames s.tree brand m).foldl (cat9FilamentStep brand m dry_run) s

/-- Fix broken display names in variant.json files. -/
def detect_and_apply_name_fixes (brand : String) (dry_run : Bool) (s : St) : St :=
  if (findB s.tree brand).isNone then s
  else (materialNames s.tree brand).foldl (cat9MaterialStep brand dry_run) s

/-! ### Report formatting -/

/-- A string of n copies of a character (the "=" * 60 idiom). -/
def repeatChar (c : Char) (n : Nat) : String :=
  String.mk (List.replicate n c)

/-- Distinct values in first-occurrence order (the effect of building a
Python set before sorting it). -/
def dedupNats (l : List Nat) : List Nat :=
  l.foldl (fun acc x => if acc.contains x then acc else acc ++ [x]) []

/-- sorted() over the distinct categories. -/
def sortedCats (l : List Nat) : List Nat :=
  sortLe (fun a b => decide (a ≤ b)) (dedupNats l)

/-- The category labels of the auto-fixable block. -/
def catLabelAuto (cat : Nat) : String :=
  if cat == 1 then "Swapped filament/variant layers"
  else if cat == 2 then "Prefix/suffix stripped"
  else if cat == 3 then "Import prefix stripped"
  else if cat == 5 then "Color split from filament name"
  else if cat == 7 then "Product line moved to filament dir"
  else if cat == 8 then "Common prefix stripped/moved"
  else if cat == 9 then "Display name fixed"
  else "Category " ++ toString cat

/-- The category labels of the manual-review block. -/
def catLabelManual (cat : Nat) : String :=
  if cat == 2 then "Series prefix (potential product line)"
  else if cat == 3 then "Import prefix (potential product line)"
  else if cat == 4 then "Technical specs in variant names"
  else if cat == 5 then "Colors merged into filament names"
  else if cat == 6 then "Overly long variant names"
  else if cat == 7 then "Product line prefix at variant level"
  else "Category " ++ toString cat

/-- Format the cleanup report as human-readable text; a pure function of the
report and the applied flag. -/
def format_report (report : CleanupReport) (applied : Bool) : String :=
  let dashes := repeatChar '-' 60
  let equals := repeatChar '=' 60
  let mode := if applied then "APPLIED" else "DRY RUN (use --apply to execute)"
  let auto := report.auto_actions
  let manual := report.manual_actions
  let lines0 : List String :=
    [equals, "OPT NAMING CLEANUP REPORT", equals, "", "Mode: " ++ mode, ""]
  let autoLines : List String :=
    if auto.isEmpty then []
    else
      [dashes, "AUTO-FIXABLE (" ++ toString auto.length ++ "):", dashes]
      ++ (sortedCats (auto.map (fun a => a.category))).flatMap (fun cat =>
          let cat_actions := auto.filter (fun a => a.category == cat)
          ("\n  Category " ++ toString cat ++ " - " ++ catLabelAuto cat
             ++ " (" ++ toString cat_actions.length ++ "):")
          :: cat_actions.flatMap (fun a =>
               if !(a.new_path == "") then
                 ["    " ++ a.old_path, "      -> " ++ a.new_path]
               else ["    " ++ a.old_path]))
      ++ [""]
  let manualLines : List String :=
    if manual.isEmpty then []
    else
      [dashes, "MANUAL REVIEW NEEDED (" ++ toString manual.length ++ "):", dashes]
      ++ (sortedCats (manual.map (fun a => a.category))).flatMap (fun cat =>
          let cat_actions := manual.filter (fun a => a.category == cat)
          ("\n  Category " ++ toString cat ++ " - " ++ catLabelManual cat
             ++ " (" ++ toString cat_actions.length ++ "):")
          :: cat_actions.flatMap (fun a =>
               ["    " ++ a.old_path, "      Reason: " ++ a.description]))
      ++ [""]
  let skippedLines : List String :=
    if report.skipped.isEmpty then []
    else
      [dashes, "SKIPPED DUE TO COLLISIONS (" ++ toString report.skipped.length ++ "):",
       dashes]
      ++ report.skipped.map (fun sk => "    " ++ sk)
      ++ [""]
  let errorLines : List String :=
    if report.errors.isEmpty then []
    else
      [dashes, "ERRORS (" ++ toString report.errors.length ++ "):", dashes]
      ++ report.errors.map (fun e => "    " ++ e)
      ++ [""]
  let summary : List String :=
    [dashes, "SUMMARY:",
     "  Auto-fixable:   " ++ toString auto.length,
     "  Manual review:  " ++ toString manual.length,
     "  Skipped:        " ++ toString report.skipped.length,
     "  Errors:         " ++ toString report.errors.length,
     "  Total issues:   " ++ toString report.actions.length,
     equals]
  String.intercalate "\n"
    (lines0 ++ autoLines ++ manualLines ++ skippedLines ++ errorLines ++ summary)

/-! ### The orchestrator -/

/-- The command-line arguments of the script that affect the run. -/
structure Args where
  apply : Bool
  brand : Option String
  category : Option Nat
  report_path : String
deriving DecidableEq, Repr

/-- The result record returned by the script. -/
structure ScriptResult where
  success : Bool
  message : String
  auto_fixed : Nat
  manual_review : Nat
  skipped : Nat
  errors : Nat
deriving DecidableEq, Repr

/-- The full outcome of a run: the final tree, the report, the formatted
report text and the script result (writing the text to the report file and
logging are out of the model). -/
structure RunOut where
  tree : DataTree
  report : CleanupReport
  report_text : String
  result : ScriptResult
deriving DecidableEq, Repr

/-- The guard "category_filter is None or category_filter == c". -/
def catIs (catF : Option Nat) (c : Nat) : Bool :=
  match catF with
  | none => true
  | some x => x == c

/-- The guard "category_filter is None or category_filter in (2, 3)". -/
def catIs23 (catF : Option Nat) : Bool :=
  match catF with
  | none => true
  | some x => x == 2 || x == 3

/-- The per-brand category sequence of the run loop. -/
def runBrandStep (dry_run : Bool) (catF : Option Nat) (s : St) (brand : String) : St :=
  let s1 :=
    if catIs catF 1 then
      let dm := detect_category_1 s.tree brand s.report
      let s' : St := { s with report := dm.1 }
      if !dry_run && !dm.2.isEmpty then apply_category_1 dm.2 false s' else s'
    else s
  let s2 := if catIs23 catF then detect_and_apply_prefixes brand dry_run catF s1 else s1
  let s3 := if catIs catF 7 then detect_and_apply_product_lines brand dry_run s2 else s2
  let s4 := if catIs catF 7 then detect_and_apply_product_line_suffixes brand dry_run s3 else s3
  let s5 := if catIs catF 2 then detect_and_apply_suffix_strips brand dry_run s4 else s4
  let s6 := if catIs catF 5 then detect_and_apply_color_split brand dry_run s5 else s5
  let s7 := if catIs catF 8 then detect_and_apply_common_prefix brand dry_run s6 else s6
  if catIs catF 9 then detect_and_apply_name_fixes brand dry_run s7 else s7

/-- The final Category 4 audit of the run: scan each brand over the current
tree, suppressing already surfaced paths, when the category filter allows. -/
def runAudit4 (t : DataTree) (brands : List String) (catF : Option Nat)
    (already : List String) (rep : CleanupReport) : CleanupReport :=
  if catIs catF 4 then
    brands.foldl (fun r b => detect_category_4 t b r already) rep
  else rep

/-- The final Category 6 audit of the run. -/
def runAudit6 (t : DataTree) (brands : List String) (catF : Option Nat)
    (already : List String) (rep : CleanupReport) : CleanupReport :=
  if catIs catF 6 then
    brands.foldl (fun r b => detect_category_6 t b r already) rep
  else rep

/-- The run method of the script: scan the selected brands through the fixed
category sequence, then audit Categories 4 and 6 over the resulting tree
with the already-surfaced paths suppressed, and format the report. -/
def CleanupOptNamingScript.run (t : DataTree) (args : Args) : RunOut :=
  let dry_run := !args.apply
  let brands : List String :=
    match args.brand with
    | some b => if b == "" then brandNames t else [b]
    | none => brandNames t
  let sFinal := brands.foldl (runBrandStep dry_run args.category)
    { tree := t, report := { actions := [], errors := [], skipped := [] } }
  let already : List String :=
    (sFinal.report.actions.map (fun a => a.old_path))
    ++ ((sFinal.report.actions.filter (fun a => !(a.new_path == ""))).map
         (fun a => a.new_path))
  let rep4 := runAudit4 sFinal.tree brands args.category already sFinal.report
  let rep6 := runAudit6 sFinal.tree brands args.category already rep4
  let report_text := format_report rep6 (!dry_run)
  let auto_count := rep6.auto_actions.length
  let manual_count := rep6.manual_actions.length
  let msg :=
    if dry_run then
      "Dry run complete. " ++ toString auto_count ++ " auto-fixable, "
        ++ toString manual_count ++ " need manual review. Report saved to "
        ++ args.report_path
    else
      "Applied " ++ toString auto_count ++ " fixes. " ++ toString manual_count
        ++ " still need manual review. Report saved to " ++ args.report_path
  { tree := sFinal.tree,
    report := rep6,
    report_text := report_text,
    result := {
      success := true, message := msg,
      auto_fixed := auto_count, manual_review := manual_count,
      skipped := rep6.skipped.length, errors := rep6.errors.length } }

/-! ### Run invariants

Every detector and executor only appends to the report and never touches its
errors list; in dry-run mode it also leaves the tree untouched.  The
relation SExt captures one such step, and every action ever appended
satisfies the structural action invariant below. -/

/-- The structural invariant of every appended action: a recognised
confidence tier, category 9 only as an in-place auto edit with empty
new_path, and a non-empty new_path on every auto action of the structural
categories. -/
def ActionInv (a : CleanupAction) : Prop :=
  (a.confidence = "auto" ∨ a.confidence = "manual_review") ∧
  (a.category = 9 → a.new_path = "" ∧ a.confidence = "auto") ∧
  (a.confidence = "auto" →
    (a.category = 1 ∨ a.category = 2 ∨ a.category = 3 ∨ a.category = 5
      ∨ a.category = 7 ∨ a.category = 8) →
    a.new_path ≠ "")

/-- A four-segment relative path is never the empty string. -/
theorem relPath4_ne_empty (b m f v : String) : relPath4 b m f v ≠ "" := by
  unfold relPath4
  intro h
  have h2 := congrArg String.data h
  simp [String.data_append] at h2

/-- A three-segment relative path is never the empty string. -/
theorem relPath3_ne_empty (b m f : String) : relPath3 b m f ≠ "" := by
  unfold relPath3
  intro h
  have h2 := congrArg String.data h
  simp [String.data_append] at h2

/-- One engine step extends the report by invariant-satisfying actions and
skips, never touches errors, and preserves the tree in dry-run mode. -/
def SExt (dry : Bool) (s s' : St) : Prop :=
  (dry = true → s'.tree = s.tree) ∧
  s'.report.errors = s.report.errors ∧
  (∃ d, s'.report.actions = s.report.actions ++ d ∧ ∀ a ∈ d, ActionInv a) ∧
  (∃ d, s'.report.skipped = s.report.skipped ++ d)

theorem SExt_refl (dry : Bool) (s : St) : SExt dry s s :=
  ⟨fun _ => rfl, rfl, ⟨[], by simp, by simp⟩, ⟨[], by simp⟩⟩

theorem SExt_trans {dry : Bool} {a b c : St} (h1 : SExt dry a b)
    (h2 : SExt dry b c) : SExt dry a c := by
  obtain ⟨t1, e1, ⟨d1, hd1, hp1⟩, ⟨k1, hk1⟩⟩ := h1
  obtain ⟨t2, e2, ⟨d2, hd2, hp2⟩, ⟨k2, hk2⟩⟩ := h2
  refine ⟨fun h => (t2 h).trans (t1 h), e2.trans e1,
    ⟨d1 ++ d2, ?_, ?_⟩, ⟨k1 ++ k2, ?_⟩⟩
  · rw [hd2, hd1, List.append_assoc]
  · intro a ha
    rcases List.mem_append.1 ha with h | h
    · exact hp1 a h
    · exact hp2 a h
  · rw [hk2, hk1, List.append_assoc]

/-- Folding invariant-preserving steps preserves the invariant, through any
projection of the loop state onto the engine state. -/
theorem foldl_sext {σ α : Type} (proj : σ → St) (dry : Bool) (f : σ → α → σ)
    (hstep : ∀ s x, SExt dry (proj s) (proj (f s x))) :
    ∀ (l : List α) (s : σ), SExt dry (proj s) (proj (l.foldl f s)) := by
  intro l
  induction l with
  | nil => intro s; exact SExt_refl ..
  | cons x xs ih =>
    intro s
    exact SExt_trans (hstep s x) (ih (f s x))

theorem SExt_addAction (dry : Bool) (s : St) (a : CleanupAction)
    (h : ActionInv a) : SExt dry s (s.addAction a) :=
  ⟨fun _ => rfl, rfl, ⟨[a], rfl, by simpa using h⟩, ⟨[], by simp [St.addAction]⟩⟩

theorem SExt_addSkip (dry : Bool) (s : St) (msg : String) :
    SExt dry s (s.addSkip msg) :=
  ⟨fun _ => rfl, rfl, ⟨[], by simp [St.addSkip], by simp⟩, ⟨[msg], rfl⟩⟩

/-- Tree replacement is an engine step only outside dry-run mode. -/
theorem SExt_setTree (s : St) (t' : DataTree) :
    SExt false s { s with tree := t' } := by
  refine ⟨?_, rfl, ⟨[], by simp, by simp⟩, ⟨[], by simp⟩⟩
  intro h
  exact absurd h (by decide)

/-- Report-preserving tree replacement on a state (the shape of the apply
branches). -/
theorem SExt_of_report_eq (dry : Bool) (s s' : St)
    (htree : dry = true → s'.tree = s.tree) (hrep : s'.report = s.report) :
    SExt dry s s' :=
  ⟨htree, by rw [hrep], ⟨[], by rw [hrep]; simp, by simp⟩, ⟨[], by rw [hrep]; simp⟩⟩

/-- The invariant for an auto action of a structural category with a
non-empty destination. -/
theorem ActionInv_auto_structural (cat : Nat) (b op np ds : String)
    (hc : cat = 1 ∨ cat = 2 ∨ cat = 3 ∨ cat = 5 ∨ cat = 7 ∨ cat = 8)
    (hnp : np ≠ "") :
    ActionInv { category := cat, brand := b, old_path := op, new_path := np,
                description := ds, confidence := "auto" } := by
  refine ⟨Or.inl rfl, ?_, fun _ _ => hnp⟩
  intro h9
  simp only at h9
  rcases hc with h | h | h | h | h | h <;> omega

/-- The invariant for a manual-review action of a category other than 9. -/
theorem ActionInv_manual (cat : Nat) (b op np ds : String) (hc : cat ≠ 9) :
    ActionInv { category := cat, brand := b, old_path := op, new_path := np,
                description := ds, confidence := "manual_review" } := by
  refine ⟨Or.inr rfl, ?_, ?_⟩
  · intro h9
    simp only at h9
    exact absurd h9 hc
  · intro hauto
    simp at hauto

/-- The invariant for a category 9 in-place auto edit. -/
theorem ActionInv_cat9 (b op ds : String) :
    ActionInv { category := 9, brand := b, old_path := op, new_path := "",
                description := ds, confidence := "auto" } := by
  refine ⟨Or.inl rfl, fun _ => ⟨rfl, rfl⟩, ?_⟩
  intro _ hc
  simp only at hc
  rcases hc with h | h | h | h | h | h <;> omega

/-- The Category 9 variant step is an engine step. -/
theorem cat9VariantStep_sext (brand m f : String) (dry : Bool) (s : St)
    (v : String) : SExt dry s (cat9VariantStep brand m f dry s v) := by
  unfold cat9VariantStep
  split
  · exact SExt_refl ..
  split
  · exact SExt_refl ..
  simp only []
  repeat' split
  all_goals
    first
      | exact SExt_refl ..
      | exact SExt_addAction _ _ _ (ActionInv_cat9 ..)
      | (rename_i hdry
         rw [Bool.not_eq_true] at hdry
         subst hdry
         exact SExt_trans (SExt_addAction _ _ _ (ActionInv_cat9 ..)) (SExt_setTree ..))

/-- The report-level engine step (for the pure detectors that take only the
report): append invariant-satisfying actions and skips, never touch
errors. -/
def RExt (r r' : CleanupReport) : Prop :=
  r'.errors = r.errors ∧
  (∃ d, r'.actions = r.actions ++ d ∧ ∀ a ∈ d, ActionInv a) ∧
  (∃ d, r'.skipped = r.skipped ++ d)

theorem RExt_refl (r : CleanupReport) : RExt r r :=
  ⟨rfl, ⟨[], by simp, by simp⟩, ⟨[], by simp⟩⟩

theorem RExt_trans {a b c : CleanupReport} (h1 : RExt a b) (h2 : RExt b c) :
    RExt a c := by
  obtain ⟨e1, ⟨d1, hd1, hp1⟩, ⟨k1, hk1⟩⟩ := h1
  obtain ⟨e2, ⟨d2, hd2, hp2⟩, ⟨k2, hk2⟩⟩ := h2
  refine ⟨e2.trans e1, ⟨d1 ++ d2, ?_, ?_⟩, ⟨k1 ++ k2, ?_⟩⟩
  · rw [hd2, hd1, List.append_assoc]
  · intro a ha
    rcases List.mem_append.1 ha with h | h
    · exact hp1 a h
    · exact hp2 a h
  · rw [hk2, hk1, List.append_assoc]

theorem foldl_rext {σ α : Type} (proj : σ → CleanupReport) (f : σ → α → σ)
    (hstep : ∀ s x, RExt (proj s) (proj (f s x))) :
    ∀ (l : List α) (s : σ), RExt (proj s) (proj (l.foldl f s)) := by
  intro l
  induction l with
  | nil => intro s; exact RExt_refl _
  | cons x xs ih =>
    intro s
    exact RExt_trans (hstep s x) (ih (f s x))

theorem RExt_addAction (r : CleanupReport) (a : CleanupAction) (h : ActionInv a) :
    RExt r { r with actions := r.actions ++ [a] } :=
  ⟨rfl, ⟨[a], rfl, by simpa using h⟩, ⟨[], by simp⟩⟩

/-- A report extension of the report component lifts to an engine step on
states with the same tree. -/
theorem SExt_of_rext (dry : Bool) (s : St) (r' : CleanupReport)
    (h : RExt s.report r') : SExt dry s { s with report := r' } :=
  ⟨fun _ => rfl, h.1, h.2.1, h.2.2⟩

/-- The Category 4 variant check extends the report. -/
theorem cat4VariantStep_rext (brand m f : String) (already : List String)
    (rep : CleanupReport) (v : String) :
    RExt rep (cat4VariantStep brand m f already rep v) := by
  unfold cat4VariantStep
  simp only []
  split
  · exact RExt_refl _
  split
  · exact RExt_addAction _ _ (ActionInv_manual _ _ _ _ _ (by decide))
  · exact RExt_refl _

/-- Category 4 extends the report. -/
theorem detect_category_4_rext (t : DataTree) (brand : String)
    (rep : CleanupReport) (already : List String) :
    RExt rep (detect_category_4 t brand rep already) := by
  unfold detect_category_4
  split
  · exact RExt_refl _
  refine foldl_rext id _ (fun r1 mm => ?_) _ rep
  refine foldl_rext id _ (fun r2 ff => ?_) _ r1
  exact foldl_rext id _ (fun r3 vv => cat4VariantStep_rext brand mm ff already r3 vv) _ r2

/-- The Category 6 variant check extends the report. -/
theorem cat6VariantStep_rext (brand m f : String) (already : List String)
    (rep : CleanupReport) (v : String) :
    RExt rep (cat6VariantStep brand m f already rep v) := by
  unfold cat6VariantStep
  simp only []
  split
  · exact RExt_refl _
  split
  · exact RExt_refl _
  · exact RExt_addAction _ _ (ActionInv_manual _ _ _ _ _ (by decide))

/-- Category 6 extends the report. -/
theorem detect_category_6_rext (t : DataTree) (brand : String)
    (rep : CleanupReport) (already : List String) :
    RExt rep (detect_category_6 t brand rep already) := by
  unfold detect_category_6
  split
  · exact RExt_refl _
  refine foldl_rext id _ (fun r1 mm => ?_) _ rep
  refine foldl_rext id _ (fun r2 ff => ?_) _ r1
  exact foldl_rext id _ (fun r3 vv => cat6VariantStep_rext brand mm ff already r3 vv) _ r2

/-- The Category 1 per-variant detection extends the report. -/
theorem cat1VariantStep_rext (brand m f : String)
    (acc : CleanupReport × List Cat1Move) (product : String) :
    RExt acc.1 (cat1VariantStep brand m f acc product).1 := by
  unfold cat1VariantStep
  simp only []
  exact RExt_addAction _ _ (ActionInv_auto_structural _ _ _ _ _ (by omega)
    (relPath4_ne_empty _ _ _ _))

/-- The Category 1 per-filament detection extends the report. -/
theorem cat1FilamentStep_rext (t : DataTree) (brand m : String)
    (acc : CleanupReport × List Cat1Move) (f : String) :
    RExt acc.1 (cat1FilamentStep t brand m acc f).1 := by
  unfold cat1FilamentStep
  simp only []
  split
  · exact RExt_refl _
  split
  · exact RExt_refl _
  split
  · exact RExt_refl _
  exact foldl_rext Prod.fst _ (fun a p => cat1VariantStep_rext brand m f a p) _ acc

/-- The Category 1 per-material detection extends the report. -/
theorem cat1MaterialStep_rext (t : DataTree) (brand : String)
    (acc : CleanupReport × List Cat1Move) (m : String) :
    RExt acc.1 (cat1MaterialStep t brand acc m).1 := by
  unfold cat1MaterialStep
  exact foldl_rext Prod.fst _ (fun a ff => cat1FilamentStep_rext t brand m a ff) _ acc

/-- Category 1 detection extends the report. -/
theorem detect_category_1_rext (t : DataTree) (brand : String)
    (report : CleanupReport) :
    RExt report (detect_category_1 t brand report).1 := by
  unfold detect_category_1
  split
  · exact RExt_refl _
  exact foldl_rext Prod.fst _ (fun a mm => cat1MaterialStep_rext t brand a mm)
    _ (report, [])


/-- The Category 1 move execution is an engine step. -/
theorem cat1MoveStep_sext (dry : Bool)
    (acc : St × List (String × String × String)) (mv : Cat1Move) :
    SExt dry acc.1 (cat1MoveStep dry acc mv).1 := by
  unfold cat1MoveStep
  split
  · exact SExt_addSkip ..
  split
  · exact SExt_refl ..
  · rename_i hdry
    rw [Bool.not_eq_true] at hdry
    subst hdry
    exact SExt_setTree _ _

/-- The Category 1 source cleanup is an engine step (it only runs outside
dry-run mode). -/
theorem cat1CleanupStep_sext (s : St) (src : String × String × String) :
    SExt false s (cat1CleanupStep s src) := by
  unfold cat1CleanupStep
  split
  · exact SExt_refl ..
  simp only []
  split
  · exact SExt_refl ..
  · exact SExt_setTree _ _

/-- The Category 1 apply phase is an engine step. -/
theorem apply_category_1_sext (moves : List Cat1Move) (dry : Bool) (s : St) :
    SExt dry s (apply_category_1 moves dry s) := by
  unfold apply_category_1
  split
  · exact foldl_sext Prod.fst dry _ (fun a mv => cat1MoveStep_sext dry a mv) _ _
  · rename_i hdry
    rw [Bool.not_eq_true] at hdry
    subst hdry
    refine SExt_trans
      (foldl_sext Prod.fst false _ (fun a mv => cat1MoveStep_sext false a mv) moves (s, []))
      ?_
    exact foldl_sext id false _ (fun a b => cat1CleanupStep_sext a b) _ _

/-- The invariant for the Category 2/3 action, whose destination and
confidence depend on the rule behavior. -/
theorem ActionInv_prefixRule (cat : Nat) (b op rel ds : String) (is_auto : Bool)
    (hc : cat = 2 ∨ cat = 3) (hrel : rel ≠ "") :
    ActionInv { category := cat, brand := b, old_path := op,
                new_path := if is_auto then rel else "",
                description := ds,
                confidence := if is_auto then "auto" else "manual_review" } := by
  cases is_auto
  · simp only [Bool.false_eq_true, if_false]
    refine ActionInv_manual _ _ _ _ _ ?_
    rcases hc with h | h <;> omega
  · simp only [if_true]
    exact ActionInv_auto_structural _ _ _ _ _ (by rcases hc with h | h <;> omega) hrel

/-- The Category 2/3 rules loop is an engine step. -/
theorem prefixRulesLoop_sext (brand m f v : String) (dry : Bool)
    (catF : Option Nat) :
    ∀ (rules : List (String × BrandRule)) (acc : St × List String),
    SExt dry acc.1 (prefixRulesLoop brand m f v dry catF rules acc).1 := by
  intro rules
  induction rules with
  | nil => intro acc; exact SExt_refl ..
  | cons r rest ih =>
    intro acc
    unfold prefixRulesLoop
    simp only []
    split
    · exact ih acc
    split
    · exact ih acc
    split <;>
      [skip; skip] <;>
    · split
      · exact ih acc
      split
      · refine SExt_trans (SExt_addSkip dry acc.1 _) (ih _)
      split
      · exact SExt_addAction _ _ _ (ActionInv_prefixRule _ _ _ _ _ _
          (by first | exact Or.inl rfl | exact Or.inr rfl) (relPath4_ne_empty _ _ _ _))
      split
      · exact SExt_addAction _ _ _ (ActionInv_prefixRule _ _ _ _ _ _
          (by first | exact Or.inl rfl | exact Or.inr rfl) (relPath4_ne_empty _ _ _ _))
      · rename_i hdry
        rw [Bool.not_eq_true] at hdry
        subst hdry
        exact SExt_trans (SExt_addAction _ _ _ (ActionInv_prefixRule _ _ _ _ _ _
          (by first | exact Or.inl rfl | exact Or.inr rfl) (relPath4_ne_empty _ _ _ _)))
          (SExt_setTree _ _)

/-- The Category 2/3 scans are engine steps, level by level. -/
theorem prefixesVariantStep_sext (brand m f : String) (dry : Bool)
    (catF : Option Nat) (rules : List (String × BrandRule))
    (acc : St × List String) (v : String) :
    SExt dry acc.1 (prefixesVariantStep brand m f dry catF rules acc v).1 :=
  prefixRulesLoop_sext brand m f v dry catF rules acc

theorem prefixesFilamentStep_sext (brand m : String) (dry : Bool)
    (catF : Option Nat) (rules : List (String × BrandRule)) (s : St)
    (f : String) : SExt dry s (prefixesFilamentStep brand m dry catF rules s f) := by
  unfold prefixesFilamentStep
  exact foldl_sext Prod.fst dry _
    (fun a v => prefixesVariantStep_sext brand m f dry catF rules a v) _ _

theorem prefixesMaterialStep_sext (brand : String) (dry : Bool)
    (catF : Option Nat) (rules : List (String × BrandRule)) (s : St)
    (m : String) : SExt dry s (prefixesMaterialStep brand dry catF rules s m) := by
  unfold prefixesMaterialStep
  exact foldl_sext id dry _
    (fun a f => prefixesFilamentStep_sext brand m dry catF rules a f) _ _

theorem detect_and_apply_prefixes_sext (brand : String) (dry : Bool)
    (catF : Option Nat) (s : St) :
    SExt dry s (detect_and_apply_prefixes brand dry catF s) := by
  unfold detect_and_apply_prefixes
  split
  · exact SExt_refl ..
  split
  · exact SExt_refl ..
  exact foldl_sext id dry _
    (fun a mm => prefixesMaterialStep_sext brand dry catF _ a mm) _ _

/-- The suffix-strip rules loop is an engine step. -/
theorem suffixRulesLoop_sext (brand m f v : String) (dry : Bool) :
    ∀ (rules : List (String × BrandRule)) (acc : St × List String),
    SExt dry acc.1 (suffixRulesLoop brand m f v dry rules acc).1 := by
  intro rules
  induction rules with
  | nil => intro acc; exact SExt_refl ..
  | cons r rest ih =>
    intro acc
    unfold suffixRulesLoop
    simp only []
    split
    · exact ih acc
    split
    · exact ih acc
    split
    · refine SExt_trans (SExt_addSkip dry acc.1 _) (ih _)
    split
    · exact SExt_addAction _ _ _ (ActionInv_auto_structural _ _ _ _ _
        (by omega) (relPath4_ne_empty _ _ _ _))
    · rename_i hdry
      rw [Bool.not_eq_true] at hdry
      subst hdry
      exact SExt_trans (SExt_addAction _ _ _ (ActionInv_auto_structural _ _ _ _ _
        (by omega) (relPath4_ne_empty _ _ _ _))) (SExt_setTree _ _)

theorem suffixStripVariantStep_sext (brand m f : String) (dry : Bool)
    (rules : List (String × BrandRule)) (acc : St × List String) (v : String) :
    SExt dry acc.1 (suffixStripVariantStep brand m f dry rules acc v).1 :=
  suffixRulesLoop_sext brand m f v dry rules acc

theorem suffixStripFilamentStep_sext (brand m : String) (dry : Bool)
    (rules : List (String × BrandRule)) (s : St) (f : String) :
    SExt dry s (suffixStripFilamentStep brand m dry rules s f) := by
  unfold suffixStripFilamentStep
  exact foldl_sext Prod.fst dry _
    (fun a v => suffixStripVariantStep_sext brand m f dry rules a v) _ _

theorem suffixStripMaterialStep_sext (brand : String) (dry : Bool)
    (rules : List (String × BrandRule)) (s : St) (m : String) :
    SExt dry s (suffixStripMaterialStep brand dry rules s m) := by
  unfold suffixStripMaterialStep
  exact foldl_sext id dry _
    (fun a f => suffixStripFilamentStep_sext brand m dry rules a f) _ _

theorem detect_and_apply_suffix_strips_sext (brand : String) (dry : Bool)
    (s : St) : SExt dry s (detect_and_apply_suffix_strips brand dry s) := by
  unfold detect_and_apply_suffix_strips
  split
  · exact SExt_refl ..
  split
  · exact SExt_refl ..
  exact foldl_sext id dry _
    (fun a mm => suffixStripMaterialStep_sext brand dry _ a mm) _ _

/-- The combined step of an executor branch: record the action, then commit
the rewritten tree (only outside dry-run mode). -/
theorem SExt_actionTree (s : St) (a : CleanupAction) (t' : DataTree)
    (h : ActionInv a) :
    SExt false s { tree := t', report := (s.addAction a).report } :=
  SExt_trans (SExt_addAction false s a h) (SExt_setTree (s.addAction a) t')

/-- The Category 7 prefix loop is an engine step. -/
theorem productLinePrefixLoop_sext (brand m f v : String) (dry : Bool)
    (sku : Option (String → String)) :
    ∀ (pl : List String) (acc : St × List String),
    SExt dry acc.1 (productLinePrefixLoop brand m f v dry sku pl acc).1 := by
  intro pl
  induction pl with
  | nil => intro acc; exact SExt_refl ..
  | cons p rest ih =>
    intro acc
    unfold productLinePrefixLoop
    simp only []
    repeat' split
    all_goals
      first
        | exact ih acc
        | exact SExt_refl ..
        | exact SExt_addSkip ..
        | exact SExt_addAction _ _ _ (ActionInv_auto_structural _ _ _ _ _
            (by omega) (relPath4_ne_empty _ _ _ _))
        | (cases dry
           · exact SExt_actionTree _ _ _ (ActionInv_auto_structural _ _ _ _ _
               (by omega) (relPath4_ne_empty _ _ _ _))
           · exact absurd rfl (by assumption))

/-- The Category 7 scans are engine steps, level by level. -/
theorem productLineVariantStep_sext (brand m f : String) (dry : Bool)
    (pl : List String) (sku : Option (String → String))
    (acc : St × List String) (v : String) :
    SExt dry acc.1 (productLineVariantStep brand m f dry pl sku acc v).1 :=
  productLinePrefixLoop_sext brand m f v dry sku pl acc

theorem productLineFilamentStep_sext (brand m : String) (dry : Bool)
    (pl : List String) (sku : Option (String → String))
    (acc : St × List String) (f : String) :
    SExt dry acc.1 (productLineFilamentStep brand m dry pl sku acc f).1 := by
  unfold productLineFilamentStep
  exact foldl_sext Prod.fst dry _
    (fun a v => productLineVariantStep_sext brand m f dry pl sku a v) _ _

theorem productLineMaterialStep_sext (brand : String) (dry : Bool)
    (pl : List String) (sku : Option (String → String))
    (acc : St × List String) (m : String) :
    SExt dry acc.1 (productLineMaterialStep brand dry pl sku acc m).1 := by
  unfold productLineMaterialStep
  exact foldl_sext Prod.fst dry _
    (fun a f => productLineFilamentStep_sext brand m dry pl sku a f) _ _

theorem detect_and_apply_product_lines_sext (brand : String) (dry : Bool)
    (s : St) : SExt dry s (detect_and_apply_product_lines brand dry s) := by
  unfold detect_and_apply_product_lines
  split
  · exact SExt_refl ..
  split
  · exact SExt_refl ..
  exact foldl_sext Prod.fst dry _
    (fun a mm => productLineMaterialStep_sext brand dry _ _ a mm) _ (s, [])

/-- The Category 7 suffix loop is an engine step. -/
theorem productLineSuffixLoop_sext (brand m f v : String) (dry : Bool) :
    ∀ (sl : List String) (acc : St × List String),
    SExt dry acc.1 (productLineSuffixLoop brand m f v dry sl acc).1 := by
  intro sl
  induction sl with
  | nil => intro acc; exact SExt_refl ..
  | cons p rest ih =>
    intro acc
    unfold productLineSuffixLoop
    simp only []
    repeat' split
    all_goals
      first
        | exact ih acc
        | exact SExt_refl ..
        | exact SExt_addSkip ..
        | exact SExt_addAction _ _ _ (ActionInv_auto_structural _ _ _ _ _
            (by omega) (relPath4_ne_empty _ _ _ _))
        | (cases dry
           · exact SExt_actionTree _ _ _ (ActionInv_auto_structural _ _ _ _ _
               (by omega) (relPath4_ne_empty _ _ _ _))
           · exact absurd rfl (by assumption))

theorem productLineSuffixVariantStep_sext (brand m f : String) (dry : Bool)
    (sl : List String) (acc : St × List String) (v : String) :
    SExt dry acc.1 (productLineSuffixVariantStep brand m f dry sl acc v).1 :=
  productLineSuffixLoop_sext brand m f v dry sl acc

theorem productLineSuffixFilamentStep_sext (brand m : String) (dry : Bool)
    (sl : List String) (acc : St × List String) (f : String) :
    SExt dry acc.1 (productLineSuffixFilamentStep brand m dry sl acc f).1 := by
  unfold productLineSuffixFilamentStep
  exact foldl_sext Prod.fst dry _
    (fun a v => productLineSuffixVariantStep_sext brand m f dry sl a v) _ _

theorem productLineSuffixMaterialStep_sext (brand : String) (dry : Bool)
    (sl : List String) (acc : St × List String) (m : String) :
    SExt dry acc.1 (productLineSuffixMaterialStep brand dry sl acc m).1 := by
  unfold productLineSuffixMaterialStep
  exact foldl_sext Prod.fst dry _
    (fun a f => productLineSuffixFilamentStep_sext brand m dry sl a f) _ _

theorem detect_and_apply_product_line_suffixes_sext (brand : String)
    (dry : Bool) (s : St) :
    SExt dry s (detect_and_apply_product_line_suffixes brand dry s) := by
  unfold detect_and_apply_product_line_suffixes
  split
  · exact SExt_refl ..
  split
  · exact SExt_refl ..
  exact foldl_sext Prod.fst dry _
    (fun a mm => productLineSuffixMaterialStep_sext brand dry _ a mm) _ (s, [])

/-- The Category 5 filament step is an engine step. -/
theorem colorSplitFilamentStep_sext (brand m : String) (dry : Bool) (s : St)
    (f : String) : SExt dry s (colorSplitFilamentStep brand m dry s f) := by
  unfold colorSplitFilamentStep
  split
  · exact SExt_refl ..
  split
  · exact SExt_addSkip ..
  split
  · exact SExt_addAction _ _ _ (ActionInv_auto_structural _ _ _ _ _
      (by omega) (relPath4_ne_empty _ _ _ _))
  · cases dry
    · exact SExt_actionTree _ _ _ (ActionInv_auto_structural _ _ _ _ _
        (by omega) (relPath4_ne_empty _ _ _ _))
    · exact absurd rfl (by assumption)

theorem colorSplitMaterialStep_sext (brand : String) (dry : Bool) (s : St)
    (m : String) : SExt dry s (colorSplitMaterialStep brand dry s m) := by
  unfold colorSplitMaterialStep
  exact foldl_sext id dry _
    (fun a ff => colorSplitFilamentStep_sext brand m dry a ff) _ _

theorem detect_and_apply_color_split_sext (brand : String) (dry : Bool)
    (s : St) : SExt dry s (detect_and_apply_color_split brand dry s) := by
  unfold detect_and_apply_color_split
  split
  · exact SExt_refl ..
  exact foldl_sext id dry _
    (fun a mm => colorSplitMaterialStep_sext brand dry a mm) _ _

/-- The Category 8 strip step is an engine step. -/
theorem cat8StripVariantStep_sext (brand m f cp : String) (dry : Bool)
    (acc : St × List String) (old_id : String) :
    SExt dry acc.1 (cat8StripVariantStep brand m f cp dry acc old_id).1 := by
  unfold cat8StripVariantStep
  simp only []
  repeat' split
  all_goals
    first
      | exact SExt_refl ..
      | exact SExt_addSkip ..
      | exact SExt_addAction _ _ _ (ActionInv_auto_structural _ _ _ _ _
          (by omega) (relPath4_ne_empty _ _ _ _))
      | (cases dry
         · exact SExt_actionTree _ _ _ (ActionInv_auto_structural _ _ _ _ _
             (by omega) (relPath4_ne_empty _ _ _ _))
         · exact absurd rfl (by assumption))

theorem apply_strip8_sext (brand m f : String) (variant_dirs : List String)
    (cp : String) (dry : Bool) (s : St) :
    SExt dry s (apply_strip8 brand m f variant_dirs cp dry s) := by
  unfold apply_strip8
  exact foldl_sext Prod.fst dry _
    (fun a v => cat8StripVariantStep_sext brand m f cp dry a v) _ _

/-- The Category 8 move step is an engine step. -/
theorem cat8MoveVariantStep_sext (brand m f cp nfi : String) (dry : Bool)
    (acc : St × List String) (old_id : String) :
    SExt dry acc.1 (cat8MoveVariantStep brand m f cp nfi dry acc old_id).1 := by
  unfold cat8MoveVariantStep
  simp only []
  repeat' split
  all_goals
    first
      | exact SExt_refl ..
      | exact SExt_addSkip ..
      | exact SExt_addAction _ _ _ (ActionInv_auto_structural _ _ _ _ _
          (by omega) (relPath4_ne_empty _ _ _ _))
      | (cases dry
         · exact SExt_actionTree _ _ _ (ActionInv_auto_structural _ _ _ _ _
             (by omega) (relPath4_ne_empty _ _ _ _))
         · exact absurd rfl (by assumption))

theorem apply_move8_sext (brand m f : String) (variant_dirs : List String)
    (cp : String) (dry : Bool) (s : St) :
    SExt dry s (apply_move8 brand m f variant_dirs cp dry s) := by
  unfold apply_move8
  simp only []
  split
  · exact foldl_sext Prod.fst dry _
      (fun a v => cat8MoveVariantStep_sext brand m f cp _ dry a v) _ _
  · rename_i hdry
    rw [Bool.not_eq_true] at hdry
    subst hdry
    refine SExt_trans (foldl_sext Prod.fst false
      (cat8MoveVariantStep brand m f cp (rstripUnderscore cp ++ "_" ++ f) false)
      (fun a v => cat8MoveVariantStep_sext brand m f cp _ false a v)
      variant_dirs (s, [])) ?_
    split
    · split
      · exact SExt_setTree _ _
      · exact SExt_refl ..
    · exact SExt_refl ..

theorem cat8FilamentStep_sext (brand m : String) (dry : Bool) (s : St)
    (f : String) : SExt dry s (cat8FilamentStep brand m dry s f) := by
  unfold cat8FilamentStep
  simp only []
  split
  · exact SExt_refl ..
  split
  · exact SExt_refl ..
  split
  · exact SExt_refl ..
  split
  · exact apply_strip8_sext ..
  · exact apply_move8_sext ..

theorem cat8MaterialStep_sext (brand : String) (dry : Bool) (s : St)
    (m : String) : SExt dry s (cat8MaterialStep brand dry s m) := by
  unfold cat8MaterialStep
  exact foldl_sext id dry _
    (fun a ff => cat8FilamentStep_sext brand m dry a ff) _ _

theorem detect_and_apply_common_prefix_sext (brand : String) (dry : Bool)
    (s : St) : SExt dry s ( detect_and_apply_common_prefix brand dry s) := by
  unfold detect_and_apply_common_prefix
  split
  · exact SExt_refl ..
  exact foldl_sext id dry _
    (fun a mm => cat8MaterialStep_sext brand dry a mm) _ _

theorem cat9FilamentStep_sext (brand m : String) (dry : Bool) (s : St)
    (f : String) : SExt dry s (cat9FilamentStep brand m dry s f) := by
  unfold cat9FilamentStep
  exact foldl_sext id dry _
    (fun a v => cat9VariantStep_sext brand m f dry a v) _ _

theorem cat9MaterialStep_sext (brand : String) (dry : Bool) (s : St)
    (m : String) : SExt dry s (cat9MaterialStep brand dry s m) := by
  unfold cat9MaterialStep
  exact foldl_sext id dry _
    (fun a ff => cat9FilamentStep_sext brand m dry a ff) _ _

theorem detect_and_apply_name_fixes_sext (brand : String) (dry : Bool)
    (s : St) : SExt dry s (detect_and_apply_name_fixes brand dry s) := by
  unfold detect_and_apply_name_fixes
  split
  · exact SExt_refl ..
  exact foldl_sext id dry _
    (fun a mm => cat9MaterialStep_sext brand dry a mm) _ _

/-- A guarded stage of the per-brand sequence is an engine step. -/
theorem SExt_if (dry : Bool) (b : Bool) (g : St → St)
    (hg : ∀ x, SExt dry x (g x)) (s : St) :
    SExt dry s (if b then g s else s) := by
  split
  · exact hg s
  · exact SExt_refl ..

/-- The per-brand category sequence is an engine step. -/
theorem runBrandStep_sext (dry : Bool) (catF : Option Nat) (s : St)
    (brand : String) : SExt dry s (runBrandStep dry catF s brand) := by
  unfold runBrandStep
  simp only []
  refine SExt_trans ?_ (SExt_if dry (catIs catF 9)
    (detect_and_apply_name_fixes brand dry)
    (fun x => detect_and_apply_name_fixes_sext brand dry x) _)
  refine SExt_trans ?_ (SExt_if dry (catIs catF 8)
    ( detect_and_apply_common_prefix brand dry)
    (fun x => detect_and_apply_common_prefix_sext brand dry x) _)
  refine SExt_trans ?_ (SExt_if dry (catIs catF 5)
    (detect_and_apply_color_split brand dry)
    (fun x => detect_and_apply_color_split_sext brand dry x) _)
  refine SExt_trans ?_ (SExt_if dry (catIs catF 2)
    (detect_and_apply_suffix_strips brand dry)
    (fun x => detect_and_apply_suffix_strips_sext brand dry x) _)
  refine SExt_trans ?_ (SExt_if dry (catIs catF 7)
    (detect_and_apply_product_line_suffixes brand dry)
    (fun x => detect_and_apply_product_line_suffixes_sext brand dry x) _)
  refine SExt_trans ?_ (SExt_if dry (catIs catF 7)
    (detect_and_apply_product_lines brand dry)
    (fun x => detect_and_apply_product_lines_sext brand dry x) _)
  refine SExt_trans ?_ (SExt_if dry (catIs23 catF)
    (detect_and_apply_prefixes brand dry catF)
    (fun x => detect_and_apply_prefixes_sext brand dry catF x) _)
  split
  · split
    · rename_i hcond
      have hdry : dry = false := by
        rw [Bool.and_eq_true] at hcond
        rcases hcond with ⟨h1, _⟩
        rwa [Bool.not_eq_true'] at h1
      subst hdry
      exact SExt_trans (SExt_of_rext false s _ (detect_category_1_rext s.tree brand s.report))
        (apply_category_1_sext _ false _)
    · exact SExt_of_rext dry s _ (detect_category_1_rext s.tree brand s.report)
  · exact SExt_refl ..

/-- Forget the tree component of an engine step. -/
theorem RExt_of_sext {dry : Bool} {s s' : St} (h : SExt dry s s') :
    RExt s.report s'.report :=
  ⟨h.2.1, h.2.2.1, h.2.2.2⟩

/-- The Category 4 audit stage extends the report. -/
theorem runAudit4_rext (t : DataTree) (brands : List String) (catF : Option Nat)
    (already : List String) (rep : CleanupReport) :
    RExt rep (runAudit4 t brands catF already rep) := by
  unfold runAudit4
  split
  · exact foldl_rext id _ (fun r b => detect_category_4_rext t b r already) _ _
  · exact RExt_refl _

/-- The Category 6 audit stage extends the report. -/
theorem runAudit6_rext (t : DataTree) (brands : List String) (catF : Option Nat)
    (already : List String) (rep : CleanupReport) :
    RExt rep (runAudit6 t brands catF already rep) := by
  unfold runAudit6
  split
  · exact foldl_rext id _ (fun r b => detect_category_6_rext t b r already) _ _
  · exact RExt_refl _

/-- The whole run only appends invariant-satisfying actions and skips to the
initially empty report and never records an error. -/
theorem run_report_rext (t : DataTree) (args : Args) :
    RExt { actions := [], errors := [], skipped := [] }
      (CleanupOptNamingScript.run t args).report := by
  unfold CleanupOptNamingScript.run
  simp only []
  refine RExt_trans (RExt_trans ?_ (runAudit4_rext _ _ _ _ _)) (runAudit6_rext _ _ _ _ _)
  exact RExt_of_sext (foldl_sext id (!args.apply)
    (runBrandStep (!args.apply) args.category)
    (fun x b' => runBrandStep_sext (!args.apply) args.category x b') _
    { tree := t, report := { actions := [], errors := [], skipped := [] } })

/-- A run that does not apply leaves the tree untouched. -/
theorem run_dry_tree_eq (t : DataTree) (b : Option String) (c : Option Nat)
    (rp : String) :
    (CleanupOptNamingScript.run t ⟨false, b, c, rp⟩).tree = t := by
  unfold CleanupOptNamingScript.run
  simp only [Bool.not_false]
  exact (foldl_sext id true (runBrandStep true c)
    (fun x b' => runBrandStep_sext true c x b') _
    { tree := t, report := { actions := [], errors := [], skipped := [] } }).1 rfl

/-! ### Document lemmas -/

/-- Lookup at a cons cell. -/
theorem dget_cons (p : String × JVal) (d : JDoc) (k : String) :
    dget (p :: d) k = if p.1 == k then some p.2 else dget d k := by
  by_cases h : (p.1 == k) = true
  · simp [dget, List.find?, h]
  · simp [dget, List.find?, h]

/-- The in-place write of a dict update stores its value under its key. -/
theorem dget_map_set (k : String) (v : JVal) :
    ∀ d : JDoc, dmem d k = true →
      dget (d.map (fun p => if p.1 == k then (k, v) else p)) k = some v := by
  intro d
  induction d with
  | nil => intro h; simp [dmem, dget] at h
  | cons p rest ih =>
    intro hmem
    rw [List.map_cons, dget_cons]
    by_cases hp : (p.1 == k) = true
    · have he : (if p.1 == k then ((k, v) : String × JVal) else p) = (k, v) := by
        simp [hp]
      rw [he]
      simp
    · have he : (if p.1 == k then ((k, v) : String × JVal) else p) = p := by
        simp [hp]
      rw [he, if_neg (by simpa using hp)]
      apply ih
      rw [dmem, dget_cons, if_neg (by simpa using hp)] at hmem
      exact hmem

/-- The appending write of a dict update stores its value under its key. -/
theorem dget_append_single (k : String) (v : JVal) :
    ∀ d : JDoc, dmem d k = false → dget (d ++ [(k, v)]) k = some v := by
  intro d
  induction d with
  | nil =>
    intro _
    rw [List.nil_append, dget_cons]
    simp
  | cons p rest ih =>
    intro hmem
    rw [List.cons_append, dget_cons]
    by_cases hp : (p.1 == k) = true
    · exfalso
      rw [dmem, dget_cons, if_pos hp] at hmem
      simp at hmem
    · rw [if_neg (by simpa using hp)]
      apply ih
      rw [dmem, dget_cons, if_neg (by simpa using hp)] at hmem
      exact hmem

/-- A dict write stores its value under its key. -/
theorem dget_dset_self (d : JDoc) (k : String) (v : JVal) :
    dget (dset d k v) k = some v := by
  unfold dset
  split
  · rename_i hmem
    exact dget_map_set k v d hmem
  · rename_i hmem
    exact dget_append_single k v d (by simpa using hmem)

/-- The in-place write under another key does not change a lookup. -/
theorem dget_map_set_ne (k k' : String) (w : JVal) (hne : k ≠ k') :
    ∀ d : JDoc,
      dget (d.map (fun p => if p.1 == k' then (k', w) else p)) k = dget d k := by
  intro d
  induction d with
  | nil => rfl
  | cons p rest ih =>
    rw [List.map_cons, dget_cons, dget_cons]
    by_cases hp : (p.1 == k') = true
    · have he : (if p.1 == k' then ((k', w) : String × JVal) else p) = (k', w) := by
        simp [hp]
      rw [he]
      have h1 : (k' == k) = false := by
        simpa using fun h => hne h.symm
      have hpk : p.1 = k' := by simpa using hp
      have h2 : (p.1 == k) = false := by
        rw [hpk]
        exact h1
      simp only [h1, h2, if_false]
      exact ih
    · have he : (if p.1 == k' then ((k', w) : String × JVal) else p) = p := by
        simp [hp]
      rw [he]
      by_cases hk : (p.1 == k) = true
      · simp only [hk, if_true]
      · simp only [hk, if_false]
        exact ih

/-- The appending write under another key does not change a lookup. -/
theorem dget_append_single_ne (k k' : String) (w : JVal) (hne : k ≠ k') :
    ∀ d : JDoc, dget (d ++ [(k', w)]) k = dget d k := by
  intro d
  induction d with
  | nil =>
    rw [List.nil_append, dget_cons]
    have h1 : (k' == k) = false := by
      simpa using fun h => hne h.symm
    simp [h1, dget]
  | cons p rest ih =>
    rw [List.cons_append, dget_cons, dget_cons]
    by_cases hk : (p.1 == k) = true
    · simp only [hk, if_true]
    · simp only [hk, if_false]
      exact ih

/-- A dict write under one key does not change the value found under a
different key. -/
theorem dget_dset_ne (d : JDoc) (k k' : String) (w : JVal) (hne : k ≠ k') :
    dget (dset d k' w) k = dget d k := by
  unfold dset
  split
  · exact dget_map_set_ne k k' w hne d
  · exact dget_append_single_ne k k' w hne d

/-- Filtering a key out of a dict removes it. -/
theorem dmem_filter_out (k : String) :
    ∀ d : JDoc, dmem (d.filter (fun p => !(p.1 == k))) k = false := by
  intro d
  induction d with
  | nil => rfl
  | cons p rest ih =>
    rw [List.filter_cons]
    by_cases hp : (p.1 == k) = true
    · simp only [hp, Bool.not_true, if_false]
      exact ih
    · have hb : (p.1 == k) = false := by simpa using hp
      simp only [hb, Bool.not_false, if_true]
      rw [dmem, dget_cons, if_neg (by simpa using hp)]
      exact ih

/-- A popped key is gone from the remaining dict. -/
theorem dmem_dpop_self (d : JDoc) (k : String) : dmem (dpop d k).2 k = false := by
  unfold dpop
  exact dmem_filter_out k d

/-- Updating a dict under one key keeps every pair under other keys. -/
theorem dset_mem_of_ne (d : JDoc) (k k' : String) (v w : JVal)
    (hne : k ≠ k') (hmem : (k, v) ∈ d) : (k, v) ∈ dset d k' w := by
  unfold dset
  split
  · refine List.mem_map.mpr ⟨(k, v), hmem, ?_⟩
    simp [hne]
  · exact List.mem_append_left _ hmem

/-! ### Listing lemmas -/

/-- Insertion only inserts. -/
theorem mem_of_mem_insertLe {α : Type} (le : α → α → Bool) (x y : α) :
    ∀ l : List α, y ∈ insertLe le x l → y = x ∨ y ∈ l := by
  intro l
  induction l with
  | nil =>
    intro h
    simp [insertLe] at h
    exact Or.inl h
  | cons z zs ih =>
    intro h
    unfold insertLe at h
    split at h
    · rcases List.mem_cons.mp h with h1 | h1
      · exact Or.inl h1
      · exact Or.inr h1
    · rcases List.mem_cons.mp h with h1 | h1
      · exact Or.inr (List.mem_cons.mpr (Or.inl h1))
      · rcases ih h1 with h2 | h2
        · exact Or.inl h2
        · exact Or.inr (List.mem_cons.mpr (Or.inr h2))

/-- Sorting only permutes. -/
theorem mem_of_mem_sortLe {α : Type} (le : α → α → Bool) (y : α) :
    ∀ l : List α, y ∈ sortLe le l → y ∈ l := by
  intro l
  induction l with
  | nil => intro h; simp [sortLe] at h
  | cons x xs ih =>
    intro h
    have h2 : y ∈ insertLe le x (sortLe le xs) := h
    rcases mem_of_mem_insertLe le x y _ h2 with h3 | h3
    · exact List.mem_cons.mpr (Or.inl h3)
    · exact List.mem_cons.mpr (Or.inr (ih h3))

/-! ### Claim analyses

Each claim of the specification is settled by the theorems below; the
concrete trees are minimal inputs exercising the relevant detectors. -/

/-- A sainsmart tree whose single variant matches both a configured
product-line prefix and a configured product-line suffix. -/
def treeC1 : DataTree :=
  [⟨"sainsmart", [⟨"TPU", [], [⟨"tpu", [], [⟨"flexible_95a_blue_92a_flexible", []⟩]⟩]⟩]⟩]

/-- C1 counterexample: on treeC1, restricted to category 7, the dry-run
action list differs from the apply-mode action list, because the apply-mode
prefix move changes what the subsequent suffix scan sees. -/
theorem C1_counterexample :
    (CleanupOptNamingScript.run treeC1 ⟨false, none, some 7, "r.txt"⟩).report.actions
      ≠ (CleanupOptNamingScript.run treeC1 ⟨true, none, some 7, "r.txt"⟩).report.actions := by
  decide

/-- C1 (amended): a dry-run invocation leaves the data tree unchanged for
every input tree and every brand and category filter; the dry-run action
list, however, can differ from the apply-mode list when an earlier applied
fix changes what a later detector scans (see the counterexample). -/
theorem C1_theorem (t : DataTree) (b : Option String) (c : Option Nat)
    (rp : String) :
    (CleanupOptNamingScript.run t ⟨false, b, c, rp⟩).tree = t :=
  run_dry_tree_eq t b c rp

/-- A matter3d_inc variant carrying two stacked configured prefixes. -/
def treeC2 : DataTree :=
  [⟨"matter3d_inc", [⟨"PLA", [], [⟨"pla", [], [⟨"hf_basics_series_red", []⟩]⟩]⟩]⟩]

/-- C2 counterexample: applying the engine twice on treeC2 (category 2)
produces a new action on the second run: stripping the hf_ prefix exposes
the basics_series_ prefix, so the first fix does not falsify every trigger. -/
theorem C2_counterexample :
    (CleanupOptNamingScript.run
      (CleanupOptNamingScript.run treeC2 ⟨true, none, some 2, "r.txt"⟩).tree
      ⟨true, none, some 2, "r.txt"⟩).report.actions
      = [{ category := 2, brand := "matter3d_inc",
           old_path := "matter3d_inc/PLA/pla/basics_series_red",
           new_path := "matter3d_inc/PLA/pla/red",
           description := "Strip prefix 'basics_series_' from variant",
           confidence := "auto" }] := by
  decide

/-- A dremel tree matching only the digilab_ product-line prefix. -/
def treeC2b : DataTree :=
  [⟨"dremel", [⟨"PLA", [], [⟨"pla", [],
    [⟨"digilab_black", []⟩, ⟨"digilab_white", []⟩]⟩]⟩]⟩]

/-- C2 (amended): a second apply run produces zero new Actions when no fix
result matches a further rule; on the dremel digilab tree the full second
apply run is action free, while a fix whose result matches another rule
(stacked prefixes, see the counterexample) re-triggers. -/
theorem C2_theorem :
    (CleanupOptNamingScript.run
      (CleanupOptNamingScript.run treeC2b ⟨true, none, none, "r.txt"⟩).tree
      ⟨true, none, none, "r.txt"⟩).report.actions = [] := by
  decide

/-- A Category 1 swap input whose product-named variant directory carries an
extra document besides variant.json. -/
def treeC3 : DataTree :=
  [⟨"b", [⟨"TPU", [],
    [⟨"blue",
      [⟨"filament.json", some [("id", .jstr "blue"), ("name", .jstr "Blue"),
        ("color_hex", .jstr "#123456")]⟩],
      [⟨"flexible_tpu",
        [⟨"variant.json", some [("id", .jstr "flexible_tpu"),
           ("name", .jstr "Flexible TPU"), ("traits", .jstr "glossy")]⟩,
         ⟨"notes.json", some [("note", .jstr "keep me")]⟩]⟩]⟩]⟩]⟩]

/-- The number of files with a given name anywhere in the tree. -/
def countFilesNamed (t : DataTree) (n : String) : Nat :=
  (t.map (fun bd =>
    (bd.mdirs.map (fun md =>
      (md.files.filter (fun fe => fe.name == n)).length
      + (md.fdirs.map (fun fd =>
          (fd.files.filter (fun fe => fe.name == n)).length
          + (fd.vdirs.map (fun vd =>
              (vd.files.filter (fun fe => fe.name == n)).length)).sum)).sum)).sum)).sum

/-- C3 counterexample: the applied Category 1 swap of treeC3 destroys the
notes.json document of the swapped variant directory (the executor moves
only sizes.json and merges only variant.json before deleting the source
variant directory). -/
theorem C3_counterexample :
    countFilesNamed treeC3 "notes.json" = 1
    ∧ countFilesNamed
        (CleanupOptNamingScript.run treeC3 ⟨true, none, some 1, "r.txt"⟩).tree
        "notes.json" = 0 := by
  decide

/-- C3 (amended): the id and name rewrite applied to every moved variant.json
(the dset pair of updateVariantJsonWith and the executors) keeps every other
key-value pair of the document; categories 5, 7 and 8 preserve variant
documents this way, while the category 1 swap merges variant.json, moves
sizes.json and deletes any further document of the swapped variant directory
(see the counterexample). -/
theorem C3_theorem (d : JDoc) (k : String) (v : JVal) (new_id new_name : String)
    (h1 : k ≠ "id") (h2 : k ≠ "name") (hmem : (k, v) ∈ d) :
    (k, v) ∈ dset (dset d "id" (.jstr new_id)) "name" (.jstr new_name) :=
  dset_mem_of_ne _ _ _ _ _ h2 (dset_mem_of_ne _ _ _ _ _ h1 hmem)

/-- C3 witness: a concrete color_hex pair survives the id and name rewrite. -/
theorem C3_theorem_witness :
    ("color_hex", JVal.jstr "#ffffff")
      ∈ dset (dset [("id", JVal.jstr "red"), ("color_hex", JVal.jstr "#ffffff")]
          "id" (JVal.jstr "blue")) "name" (JVal.jstr "Blue") :=
  C3_theorem _ _ _ "blue" "Blue" (by decide) (by decide) (by decide)

/-- A Category 1 swap whose proper destination variant already exists. -/
def treeC4 : DataTree :=
  [⟨"b", [⟨"TPU", [],
    [⟨"blue", [], [⟨"flexible_tpu", []⟩]⟩,
     ⟨"flexible_tpu", [], [⟨"blue", []⟩]⟩]⟩]⟩]

/-- C4 counterexample: Category 1 detects without any collision check and
its executor checks only physical existence afterwards, so the applied run
on treeC4 records both an Action and a collision skip for the same source
b/TPU/blue/flexible_tpu. -/
theorem C4_counterexample :
    (CleanupOptNamingScript.run treeC4 ⟨true, none, some 1, "r.txt"⟩).report.actions
      = [{ category := 1, brand := "b",
           old_path := "b/TPU/blue/flexible_tpu",
           new_path := "b/TPU/flexible_tpu/blue",
           description := "Swap: filament 'blue' is a color, variant 'flexible_tpu' is a product",
           confidence := "auto" }]
    ∧ (CleanupOptNamingScript.run treeC4 ⟨true, none, some 1, "r.txt"⟩).report.skipped
      = ["Cat 1: b/TPU/flexible_tpu/blue already exists, skipping"] := by
  decide

/-- C4 (amended): the collision guard of the Category 7 prefix loop
behaves as specified: when the destination variant exists in the tree or is
already claimed by an earlier proposal of the same run, the step appends
exactly one skip message, creates no Action and leaves the tree and the
claimed set untouched; Category 1, however, records its Action at detect
time and only skips at apply time (see the counterexample). -/
theorem C4_theorem (brand m f v pfx : String) (rest : List String)
    (dry : Bool) (acc : St × List String)
    (h1 : startswith v pfx = true)
    (h2 : (strDrop v (pyLen pfx) == "") = false)
    (h3 : ((findV acc.1.tree brand m
        ((if rstripUnderscore pfx == "" then pfx else rstripUnderscore pfx) ++ "_" ++ f)
        (strDrop v (pyLen pfx))).isSome
      || acc.2.contains (relPath4 brand m
        ((if rstripUnderscore pfx == "" then pfx else rstripUnderscore pfx) ++ "_" ++ f)
        (strDrop v (pyLen pfx)))) = true) :
    productLinePrefixLoop brand m f v dry none (pfx :: rest) acc
      = (acc.1.addSkip ("Cat 7: " ++ relPath4 brand m f v ++ " -> "
          ++ relPath4 brand m
            ((if rstripUnderscore pfx == "" then pfx else rstripUnderscore pfx) ++ "_" ++ f)
            (strDrop v (pyLen pfx))
          ++ " would collide"), acc.2) := by
  unfold productLinePrefixLoop
  simp only [h1, h2, h3, Bool.not_true, Bool.false_eq_true, if_false, if_true]

/-- C4 witness: a concrete collision with the destination present on disk. -/
theorem C4_theorem_witness :
    productLinePrefixLoop "b" "M" "f" "silk_red" false none ["silk_"]
      (⟨[⟨"b", [⟨"M", [], [⟨"silk_f", [], [⟨"red", []⟩]⟩]⟩]⟩], ⟨[], [], []⟩⟩, [])
    = (⟨[⟨"b", [⟨"M", [], [⟨"silk_f", [], [⟨"red", []⟩]⟩]⟩]⟩],
        ⟨[], [], ["Cat 7: b/M/f/silk_red -> b/M/silk_f/red would collide"]⟩⟩, []) :=
  ( C4_theorem "b" "M" "f" "silk_red" "silk_" [] false _
    (by decide) (by decide) (by decide)).trans (by decide)

/-- A variant.json that fails to parse. -/
def treeC5 : DataTree :=
  [⟨"b", [⟨"PLA", [],
    [⟨"pla", [], [⟨"red", [⟨"variant.json", none⟩]⟩]⟩]⟩]⟩]

/-- C5 counterexample: treeC5 holds a variant.json that fails to load, yet
the whole run records nothing in the errors list (nor anywhere else): the
loader returns an empty document and no code path ever appends to
report.errors. -/
theorem C5_counterexample :
    fileAtV treeC5 "b" "PLA" "pla" "red" "variant.json"
      = some ⟨"variant.json", none⟩
    ∧ (CleanupOptNamingScript.run treeC5 ⟨true, none, none, "r.txt"⟩).report
      = ⟨[], [], []⟩ := by
  decide

/-- C5 (amended): the engine indeed continues without raising and treats an
unparseable document as absent, but it never records the failure: the errors
list of the final report is empty for every input tree and every argument
vector. -/
theorem C5_theorem (t : DataTree) (args : Args) :
    (CleanupOptNamingScript.run t args).report.errors = [] :=
  (run_report_rext t args).1

/-- A coex_3d variant carrying a configured product-line suffix. -/
def treeC6 : DataTree :=
  [⟨"coex_3d", [⟨"TPU", [], [⟨"tpu", [], [⟨"red_coexflex_60a", []⟩]⟩]⟩]⟩]

/-- C6 counterexample: the suffix match on treeC6 creates the new filament
coexflex_60a_tpu, i.e. line before old type, not old type before line as
claimed for suffixes. -/
theorem C6_counterexample :
    (CleanupOptNamingScript.run treeC6 ⟨true, none, some 7, "r.txt"⟩).report.actions
      = [{ category := 7, brand := "coex_3d",
           old_path := "coex_3d/TPU/tpu/red_coexflex_60a",
           new_path := "coex_3d/TPU/coexflex_60a_tpu/red",
           description := "Move to product line filament 'coexflex_60a_tpu' (suffix)",
           confidence := "auto" }] := by
  decide

/-- C6 (amended): every successful Category 7 suffix step names its new
filament directory line followed by the old type - the same "{line}_{old_type}"
shape as the prefix case - with line the suffix minus its leading
underscore; the spec's "{old_type}_{line}" naming for suffixes does not
occur (see the counterexample). -/
theorem C6_theorem (brand m f v sfx : String) (rest : List String)
    (dry : Bool) (acc : St × List String)
    (h1 : endswith v sfx = true)
    (h2 : (strDropRight v (pyLen sfx) == "") = false)
    (h3 : ((findV acc.1.tree brand m
        ((if lstripUnderscore sfx == "" then sfx else lstripUnderscore sfx) ++ "_" ++ f)
        (strDropRight v (pyLen sfx))).isSome
      || acc.2.contains (relPath4 brand m
        ((if lstripUnderscore sfx == "" then sfx else lstripUnderscore sfx) ++ "_" ++ f)
        (strDropRight v (pyLen sfx)))) = false) :
    (productLineSuffixLoop brand m f v dry (sfx :: rest) acc).1.report.actions
      = acc.1.report.actions
        ++ [{ category := 7, brand := brand,
              old_path := relPath4 brand m f v,
              new_path := relPath4 brand m
                ((if lstripUnderscore sfx == "" then sfx else lstripUnderscore sfx)
                  ++ "_" ++ f)
                (strDropRight v (pyLen sfx)),
              description := "Move to product line filament '"
                ++ ((if lstripUnderscore sfx == "" then sfx else lstripUnderscore sfx)
                  ++ "_" ++ f)
                ++ "' (suffix)",
              confidence := "auto" }] := by
  unfold productLineSuffixLoop
  simp only [h1, h2, h3, Bool.not_true, Bool.false_eq_true, if_false, if_true]
  cases dry
  · simp [St.addAction]
  · simp [St.addAction]

/-- C6 witness: a concrete suffix move proposal named line_oldtype. -/
theorem C6_theorem_witness :
    (productLineSuffixLoop "x" "M" "tpu" "red_line" true ["_line"]
      (⟨[], ⟨[], [], []⟩⟩, [])).1.report.actions
    = [{ category := 7, brand := "x", old_path := "x/M/tpu/red_line",
         new_path := "x/M/line_tpu/red",
         description := "Move to product line filament 'line_tpu' (suffix)",
         confidence := "auto" }] :=
  ( C6_theorem "x" "M" "tpu" "red_line" "_line" [] true _
    (by decide) (by decide) (by decide)).trans (by decide)

/-- A Category 5 tree whose type-level color_hex is the empty string. -/
def treeC7 : DataTree :=
  [⟨"b", [⟨"PLA", [],
    [⟨"silk_pla_red",
      [⟨"filament.json", some [("id", .jstr "silk_pla_red"),
         ("name", .jstr "Silk PLA Red"), ("color_hex", .jstr "")]⟩], []⟩]⟩]⟩]

/-- C7 counterexample: the Category 5 split of treeC7 pops the falsy
color_hex value "" off the type-level document but never writes it to the
new variant document, so the value is destroyed rather than relocated. -/
theorem C7_counterexample :
    (CleanupOptNamingScript.run treeC7 ⟨true, none, some 5, "r.txt"⟩).tree
      = [⟨"b", [⟨"PLA", [],
          [⟨"silk_pla",
            [⟨"filament.json", some [("id", .jstr "silk_pla"),
               ("name", .jstr "Silk Pla")]⟩],
            [⟨"red", [⟨"variant.json", some [("id", .jstr "red"),
               ("name", .jstr "Red")]⟩]⟩]⟩]⟩]⟩] := by
  decide

/-- C7 (amended): when the old type-level color_hex value is truthy, the
Category 5 documents behave as specified: the value is written to the new
variant document and is absent from the new type-level document; a falsy
value (empty string, 0, false, null) is removed from the type level but
dropped instead of relocated (see the counterexample). -/
theorem C7_theorem (d : JDoc) (head tail : String) (v : JVal)
    (hget : dget d "color_hex" = some v) (htr : v.truthy = true) :
    dget (colorSplitVariantDoc (colorSplitFilamentDoc d head).1 tail) "color_hex"
      = some v
    ∧ dmem (colorSplitFilamentDoc d head).2 "color_hex" = false := by
  have h1 : (colorSplitFilamentDoc d head).1 = some v := by
    unfold colorSplitFilamentDoc dpop
    simp only []
    rw [dget_dset_ne _ _ _ _ (by decide), dget_dset_ne _ _ _ _ (by decide), hget]
  constructor
  · rw [h1]
    unfold colorSplitVariantDoc
    simp only [htr, if_true]
    exact dget_dset_self _ _ _
  · exact dmem_dpop_self _ _

/-- C7 witness: a truthy color code survives the split. -/
theorem C7_theorem_witness :
    dget (colorSplitVariantDoc
        (colorSplitFilamentDoc
          [("id", JVal.jstr "silk_pla_red"), ("color_hex", JVal.jstr "#a1b2c3")]
          "silk_pla").1 "red") "color_hex"
      = some (JVal.jstr "#a1b2c3")
    ∧ dmem (colorSplitFilamentDoc
        [("id", JVal.jstr "silk_pla_red"), ("color_hex", JVal.jstr "#a1b2c3")]
        "silk_pla").2 "color_hex" = false :=
  C7_theorem _ "silk_pla" "red" _ (by decide) (by decide)

/-- A variant whose display name carries the empty parentheses of an OPT
import, triggering a Category 9 in-place edit. -/
def treeC8 : DataTree :=
  [⟨"b", [⟨"PLA", [],
    [⟨"pla", [], [⟨"red", [⟨"variant.json", some [("id", .jstr "red"),
       ("name", .jstr "Red ()")]⟩]⟩]⟩]⟩]⟩]

/-- C8: every action the run ever appends satisfies the structural
invariant: its confidence is auto or manual_review, a category 9 action is
an auto edit with empty new_path, and every auto action of the structural
categories 1, 2, 3, 5, 7, 8 carries a non-empty new_path. -/
theorem C8_theorem (t : DataTree) (args : Args) (a : CleanupAction)
    (h : a ∈ (CleanupOptNamingScript.run t args).report.actions) :
    ActionInv a := by
  obtain ⟨-, ⟨d, hd, hp⟩, -⟩ := run_report_rext t args
  rw [hd] at h
  simp only [List.nil_append] at h
  exact hp a h

/-- C8 witness: the Category 9 action of the treeC8 run satisfies the
invariant. -/
theorem C8_theorem_witness :
    ActionInv { category := 9, brand := "b", old_path := "b/PLA/pla/red",
                new_path := "",
                description := "Fix display name: 'Red ()' -> 'Red'",
                confidence := "auto" } :=
  C8_theorem treeC8 ⟨false, none, none, "r.txt"⟩ _ (by decide)

/-- C9: report formatting is a pure function of the actions, skipped and
errors lists and the applied flag: equal components give byte-identical
text. -/
theorem C9_theorem (r1 r2 : CleanupReport) (ap1 ap2 : Bool)
    (h1 : r1.actions = r2.actions) (h2 : r1.skipped = r2.skipped)
    (h3 : r1.errors = r2.errors) (h4 : ap1 = ap2) :
    format_report r1 ap1 = format_report r2 ap2 := by
  cases r1
  cases r2
  cases h1
  cases h2
  cases h3
  cases h4
  rfl

/-- C9 witness: two structurally equal reports format identically. -/
theorem C9_theorem_witness :
    format_report ⟨[], [], []⟩ true = format_report ⟨[] ++ [], [], []⟩ true :=
  C9_theorem _ _ _ _ rfl rfl rfl rfl

/-- A Category 8 move tree with a hidden directory inside the drained
filament directory. -/
def treeC10 : DataTree :=
  [⟨"bbb", [⟨"TPU", [],
    [⟨"tpu", [], [⟨"a95_black", []⟩, ⟨"a95_white", []⟩, ⟨".hid", []⟩]⟩]⟩]⟩]

/-- C10 counterexample: the applied Category 8 move on treeC10 drains the
tpu filament directory of its non-hidden variants and then deletes the
whole directory, destroying the hidden .hid directory beneath it. -/
theorem C10_counterexample :
    (CleanupOptNamingScript.run treeC10 ⟨true, none, some 8, "r.txt"⟩).tree
      = [⟨"bbb", [⟨"TPU", [],
          [⟨"a95_tpu",
            [⟨"filament.json", some [("id", .jstr "a95_tpu"),
               ("name", .jstr "A95 TPU")]⟩],
            [⟨"black", []⟩, ⟨"white", []⟩]⟩]⟩]⟩] := by
  decide

/-- C10 (amended): every directory listing a detector iterates over - the
sorted and the unsorted walk idiom alike - filters hidden names out, so no
hidden directory is ever scanned or named in an Action or skip; the
Category 8 cleanup, however, deletes a drained filament directory together
with hidden directories beneath it (see the counterexample). -/
theorem C10_theorem (names : List String) (n : String)
    (h : n ∈ sortedDirNames names ∨ n ∈ dirNamesUnsorted names) :
    hiddenName n = false := by
  have hmem : n ∈ names.filter (fun x => !hiddenName x) := by
    rcases h with h | h
    · unfold sortedDirNames sortNames at h
      exact mem_of_mem_sortLe _ _ _ h
    · exact h
  have h2 := (List.mem_filter.mp hmem).2
  simpa using h2

/-- C10 witness: a concrete listing keeps the non-hidden name. -/
theorem C10_theorem_witness : hiddenName "a95_black" = false :=
  C10_theorem ["a95_black", ".hid"] "a95_black" (Or.inl (by decide))
